import Mathlib

/-!
# Keyless signing: the AWS KMS signer façade and the sign ceremony

A shallow embedding of

* `pkg/signature/kms/aws/signer.go`: `SignerVerifier.SignMessage`,
  `SignerVerifier.VerifySignature`, `cryptoSignerWrapper.Sign`,
  `SignerVerifier.CryptoSigner`;
* `cmd/sign.go`: the body of `signCmd.RunE`.

Every call that leaves the two files (the KMS client, the option and digest
helpers of the signature library, the OIDC, issuance and transparency-log
clients, the file system) is a field of a record of primitives, and each
embedded function returns, next to its Go result, the list of the calls it
made, in order.
-/

namespace KeylessSigning

/-! ## Go vocabulary shared by both files -/

/-- A Go byte slice; the nil slice and the empty slice are both the empty list. -/
abbrev Bytes := List Nat

/-- Go error values: plain errors, errors wrapped with a message, the error of
an unsupported hash function, and the default error response of the issuance
client with its HTTP status code. -/
inductive GoError where
  | errorString (msg : String)
  | withMessage (cause : GoError) (msg : String)
  | UnsupportedHashError (hf : Nat)
  | SigningCertDefault (code : Nat) (msg : String)
  deriving DecidableEq, Repr

/-- The text of an error, as the method Error gives it. -/
def GoError.Error : GoError → String
  | .errorString msg => msg
  | .withMessage cause msg => msg ++ ": " ++ cause.Error
  | .UnsupportedHashError hf => "unsupported hash algorithm: " ++ toString hf
  | .SigningCertDefault _ msg => msg

/-- A non-nil byte stream: it yields `data` and then ends, with end of file when
`err` is none and with the read error otherwise. -/
structure Reader where
  data : Bytes
  err : Option GoError
  deriving DecidableEq, Repr

/-- The function io.ReadAll on a stream. -/
def Reader.ReadAll (r : Reader) : Except GoError Bytes :=
  match r.err with
  | none => .ok r.data
  | some e => .error e

/-- A context.Context value. -/
abbrev Context := Nat

/-- The type crypto.Hash, an unsigned integer naming a hash function. -/
abbrev crypto.Hash := Nat

def crypto.MD4 : crypto.Hash := 1
def crypto.MD5 : crypto.Hash := 2
def crypto.SHA1 : crypto.Hash := 3
def crypto.SHA224 : crypto.Hash := 4
def crypto.SHA256 : crypto.Hash := 5
def crypto.SHA384 : crypto.Hash := 6
def crypto.SHA512 : crypto.Hash := 7

/-- The interface crypto.SignerOpts: a bare hash function, or RSA-PSS options
carrying one. -/
inductive crypto.SignerOpts where
  | hash (h : crypto.Hash)
  | PSSOptions (saltLength : Int) (h : crypto.Hash)
  deriving DecidableEq, Repr

/-- The method HashFunc of crypto.SignerOpts. -/
def crypto.SignerOpts.HashFunc : crypto.SignerOpts → crypto.Hash
  | .hash h => h
  | .PSSOptions _ h => h

/-- What the Go runtime and standard library supply: the background context,
how a requested context is applied to the current one, and the digest of a byte
string under a hash function. -/
structure Runtime where
  Background : Context
  applyContext : Context → Context → Context
  hashSum : crypto.Hash → Bytes → Bytes

/-! ## `pkg/signature/kms/aws/signer.go` -/

/-- Modelled from the spec: the option values of the signature library (package
options is not among the sources). SignOptions are context, digest and
cryptoSignerOpts; VerifyOptions add remoteVerification (§3); any other option is
ignored by every Apply method. -/
inductive RPCOption where
  | WithContext (ctx : Context)
  | WithDigest (digest : Bytes)
  | WithCryptoSignerOpts (opts : crypto.SignerOpts)
  | WithRemoteVerification (remoteVerification : Bool)
  | NoOp
  deriving DecidableEq, Repr

abbrev SignOption := RPCOption

abbrev VerifyOption := RPCOption

/-- Modelled from the spec: ApplyContext of the missing options package; the
context of an option is applied to the current one (§3: context accumulates from
all options applied in order). -/
def RPCOption.ApplyContext (rt : Runtime) (opt : RPCOption) (ctx : Context) : Context :=
  match opt with
  | .WithContext c => rt.applyContext c ctx
  | _ => ctx

/-- Modelled from the spec: ApplyDigest of the missing options package; a digest
option replaces the current digest (§3: the last applied value wins). -/
def RPCOption.ApplyDigest (opt : RPCOption) (digest : Bytes) : Bytes :=
  match opt with
  | .WithDigest d => d
  | _ => digest

/-- Modelled from the spec: ApplyCryptoSignerOpts of the missing options package;
a hash-override option replaces the current signer options (§3). -/
def RPCOption.ApplyCryptoSignerOpts (opt : RPCOption) (signerOpts : crypto.SignerOpts) :
    crypto.SignerOpts :=
  match opt with
  | .WithCryptoSignerOpts o => o
  | _ => signerOpts

/-- Modelled from the spec: ApplyRemoteVerification of the missing options
package; a remoteVerification option sets the flag (§3). -/
def RPCOption.ApplyRemoteVerification (opt : RPCOption) (remoteVerification : Bool) : Bool :=
  match opt with
  | .WithRemoteVerification b => b
  | _ => remoteVerification

/-- Whether an option is a digest option. -/
def RPCOption.isDigest : RPCOption → Bool
  | .WithDigest _ => true
  | _ => false

/-- Whether an option is a cryptoSignerOpts option. -/
def RPCOption.isCryptoSignerOpts : RPCOption → Bool
  | .WithCryptoSignerOpts _ => true
  | _ => false

/-- The backend primitives of the KMS client (client.go is not among the
sources): each is taken as given. A function returning only an error returns
none for nil. -/
structure awsClient where
  getHashFunc : Context → Except GoError crypto.Hash
  sign : Context → Bytes → crypto.Hash → Except GoError Bytes
  verify : Context → Reader → Option Reader → List VerifyOption → Option GoError
  verifyRemotely : Context → Bytes → Bytes → Option GoError

/-- One observable step of the façade: a call of a backend primitive, or the
consumption of one of the two streams. -/
inductive Call where
  | getHashFunc (ctx : Context)
  | sign (ctx : Context) (digest : Bytes) (hf : crypto.Hash)
  | verify (ctx : Context) (sig : Reader) (message : Option Reader) (opts : List VerifyOption)
  | verifyRemotely (ctx : Context) (sig : Bytes) (digest : Bytes)
  | readMessage
  | readSignature
  deriving DecidableEq, Repr

/-- Whether a step is a call of the raw sign primitive. -/
def Call.isSign : Call → Bool
  | .sign _ _ _ => true
  | _ => false

/-- Whether a step is a call of the local verify primitive. -/
def Call.isVerify : Call → Bool
  | .verify _ _ _ _ => true
  | _ => false

/-- Whether a step is a call of the remote verify primitive. -/
def Call.isVerifyRemotely : Call → Bool
  | .verifyRemotely _ _ _ => true
  | _ => false

/-- Whether a step consumes the message stream. -/
def Call.isReadMessage : Call → Bool
  | .readMessage => true
  | _ => false

def awsSupportedHashFuncs : List crypto.Hash :=
  [crypto.SHA256, crypto.SHA384, crypto.SHA512]

structure SignerVerifier where
  client : awsClient

/-- The digest left by applying ApplyDigest of every option in order. -/
def resolveDigest (opts : List RPCOption) (digest : Bytes) : Bytes :=
  opts.foldl (fun d opt => opt.ApplyDigest d) digest

/-- The context left by applying ApplyContext of every option in order. -/
def resolveContext (rt : Runtime) (opts : List RPCOption) (ctx : Context) : Context :=
  opts.foldl (fun c opt => opt.ApplyContext rt c) ctx

/-- The signer options left by applying ApplyCryptoSignerOpts of every option in
order. -/
def resolveSignerOpts (opts : List RPCOption) (signerOpts : crypto.SignerOpts) :
    crypto.SignerOpts :=
  opts.foldl (fun s opt => opt.ApplyCryptoSignerOpts s) signerOpts

/-- The flag left by applying ApplyRemoteVerification of every option in order. -/
def resolveRemoteVerification (opts : List RPCOption) (remoteVerification : Bool) : Bool :=
  opts.foldl (fun b opt => opt.ApplyRemoteVerification b) remoteVerification

/-- Modelled from the spec: ComputeDigestForSigning of the missing signature
library (§2 DigestPolicy, §4.2 (b)): the default hash function may be overridden
by cryptoSignerOpts; the resolved function must be in the supported set, else
UnsupportedHashError; a pre-supplied digest is returned as it is; otherwise the
message, which must be present, is streamed through the hash function. -/
def ComputeDigestForSigning (rt : Runtime) (rawMessage : Option Reader)
    (defaultHashFunc : crypto.Hash) (supportedHashFuncs : List crypto.Hash)
    (opts : List SignOption) : Except GoError (Bytes × crypto.Hash) × List Call :=
  let digest := resolveDigest opts []
  let hashedWith := (resolveSignerOpts opts (.hash defaultHashFunc)).HashFunc
  if hashedWith ∈ supportedHashFuncs then
    if digest.length = 0 then
      match rawMessage with
      | none => (.error (.errorString "message cannot be nil"), [])
      | some r =>
        match r.ReadAll with
        | .error e => (.error e, [.readMessage])
        | .ok data => (.ok (rt.hashSum hashedWith data, hashedWith), [.readMessage])
    else
      (.ok (digest, hashedWith), [])
  else
    (.error (.UnsupportedHashError hashedWith), [])

/-- Modelled from the spec: ComputeDigestForVerifying of the missing signature
library; §4.2 makes the verify-specific check symmetric with signing. -/
def ComputeDigestForVerifying (rt : Runtime) (rawMessage : Option Reader)
    (defaultHashFunc : crypto.Hash) (supportedHashFuncs : List crypto.Hash)
    (opts : List VerifyOption) : Except GoError (Bytes × crypto.Hash) × List Call :=
  ComputeDigestForSigning rt rawMessage defaultHashFunc supportedHashFuncs opts

/-- The first loop of SignMessage: every option applies its context and its
digest. -/
def signLoop (rt : Runtime) (opts : List SignOption) (ctx : Context) (digest : Bytes) :
    Context × Bytes :=
  opts.foldl (fun st opt => (opt.ApplyContext rt st.1, opt.ApplyDigest st.2)) (ctx, digest)

/-- The method SignMessage of SignerVerifier, with the calls it makes. -/
def SignerVerifier.SignMessage (rt : Runtime) (a : SignerVerifier) (message : Option Reader)
    (opts : List SignOption) : Except GoError Bytes × List Call :=
  let st := signLoop rt opts rt.Background []
  let ctx := st.1
  let digest := st.2
  match a.client.getHashFunc ctx with
  | .error err =>
    (.error (.withMessage err "getting fetching default hash function"), [.getHashFunc ctx])
  | .ok dflt =>
    let signerOpts := resolveSignerOpts opts (.hash dflt)
    let hf := signerOpts.HashFunc
    if digest.length = 0 then
      match ComputeDigestForSigning rt message hf awsSupportedHashFuncs opts with
      | (.error err, tr) => (.error err, .getHashFunc ctx :: tr)
      | (.ok (digest, hf), tr) =>
        (a.client.sign ctx digest hf, .getHashFunc ctx :: (tr ++ [.sign ctx digest hf]))
    else
      (a.client.sign ctx digest hf, [.getHashFunc ctx, .sign ctx digest hf])

/-- The first loop of VerifySignature: every option applies its context, its
digest and its remote-verification flag. -/
def verifyLoop (rt : Runtime) (opts : List VerifyOption) (ctx : Context) (digest : Bytes)
    (remoteVerification : Bool) : Context × Bytes × Bool :=
  opts.foldl
    (fun st opt =>
      (opt.ApplyContext rt st.1, opt.ApplyDigest st.2.1, opt.ApplyRemoteVerification st.2.2))
    (ctx, digest, remoteVerification)

/-- Lines 160 to 175 of VerifySignature, the digest resolution of the remote
path: fetch the default hash function, let the options override it, and compute
the digest when the options supplied none. -/
def SignerVerifier.resolveDigestForVerifying (rt : Runtime) (a : SignerVerifier)
    (message : Option Reader) (opts : List VerifyOption) (ctx : Context) (digest : Bytes) :
    Except GoError Bytes × List Call :=
  match a.client.getHashFunc ctx with
  | .error err => (.error (.withMessage err "getting hash func"), [.getHashFunc ctx])
  | .ok dflt =>
    let signerOpts := resolveSignerOpts opts (.hash dflt)
    let hf := signerOpts.HashFunc
    if digest.length = 0 then
      match ComputeDigestForVerifying rt message hf awsSupportedHashFuncs opts with
      | (.error err, tr) => (.error err, .getHashFunc ctx :: tr)
      | (.ok (digest, _), tr) => (.ok digest, .getHashFunc ctx :: tr)
    else
      (.ok digest, [.getHashFunc ctx])

/-- The method VerifySignature of SignerVerifier, with the calls it makes; the
result is none for a nil error. -/
def SignerVerifier.VerifySignature (rt : Runtime) (a : SignerVerifier) (sig : Reader)
    (message : Option Reader) (opts : List VerifyOption) : Option GoError × List Call :=
  let st := verifyLoop rt opts rt.Background [] false
  let ctx := st.1
  let digest := st.2.1
  let remoteVerification := st.2.2
  if !remoteVerification then
    (a.client.verify ctx sig message opts, [.verify ctx sig message opts])
  else
    match a.resolveDigestForVerifying rt message opts ctx digest with
    | (.error err, tr) => (some err, tr)
    | (.ok digest, tr) =>
      match sig.ReadAll with
      | .error err => (some (.withMessage err "reading signature"), tr ++ [.readSignature])
      | .ok sigBytes =>
        (a.client.verifyRemotely ctx sigBytes digest,
          tr ++ [.readSignature, .verifyRemotely ctx sigBytes digest])

structure cryptoSignerWrapper where
  ctx : Context
  hashFunc : crypto.Hash
  sv : SignerVerifier
  errFunc : Option (GoError → Unit)

/-- The method Sign of cryptoSignerWrapper; the first argument is the random
source, which the method does not name. -/
def cryptoSignerWrapper.Sign (rt : Runtime) (c : cryptoSignerWrapper) (rand : Option Reader)
    (digest : Bytes) (opts : Option crypto.SignerOpts) : Except GoError Bytes × List Call :=
  let _unused := rand
  let hashFunc :=
    match opts with
    | some o => o.HashFunc
    | none => c.hashFunc
  let awsOptions : List SignOption :=
    [.WithContext c.ctx, .WithDigest digest, .WithCryptoSignerOpts (.hash hashFunc)]
  c.sv.SignMessage rt none awsOptions

/-- The method CryptoSigner of SignerVerifier: the wrapper and the default
signer options, with the calls it makes. -/
def SignerVerifier.CryptoSigner (a : SignerVerifier) (ctx : Context)
    (errFunc : Option (GoError → Unit)) :
    Except GoError (cryptoSignerWrapper × crypto.SignerOpts) × List Call :=
  match a.client.getHashFunc ctx with
  | .error err =>
    (.error (.withMessage err "getting fetching default hash function"), [.getHashFunc ctx])
  | .ok defaultHf =>
    (.ok ({ ctx := ctx, sv := a, hashFunc := defaultHf, errFunc := errFunc }, .hash defaultHf),
      [.getHashFunc ctx])

/-- The generic-signer adapter as §4.3 words it: forward to SignMessage with no
message, the digest pre-supplied, and a hash-function override taken from the
caller's options, or the backend default when the caller gives none. -/
def SignSpec (rt : Runtime) (a : SignerVerifier) (ctx : Context)
    (backendDefault : crypto.Hash) (digest : Bytes) (hashOpts : Option crypto.SignerOpts) :
    Except GoError Bytes × List Call :=
  let override : crypto.Hash := (hashOpts.map crypto.SignerOpts.HashFunc).getD backendDefault
  a.SignMessage rt none [.WithContext ctx, .WithDigest digest, .WithCryptoSignerOpts (.hash override)]

/-! ## `cmd/sign.go` -/

/-- The bytes of a Go string. -/
def bytesOf (s : String) : Bytes :=
  s.toUTF8.toList.map UInt8.toNat

/-- The identity token returned by the OIDC flow. -/
structure OIDCIDToken where
  RawString : String
  Subject : String
  deriving DecidableEq, Repr

/-- A public key, as the signer hands it out. -/
structure PublicKey where
  key : Bytes
  deriving DecidableEq, Repr

/-- A parsed X.509 certificate. -/
structure Certificate where
  SerialNumber : Nat
  Raw : Bytes
  deriving DecidableEq, Repr

/-- The successful response of the issuance call. -/
structure SigningCertCreated where
  Payload : String
  deriving DecidableEq, Repr

/-- The ephemeral signer of the ceremony (package signature of this repository
is not among the sources). The ceremony calls SignMessage twice; the first
argument is the number of calls made before. -/
structure ECDSASignerVerifier where
  PublicKey : Except GoError PublicKey
  SignMessage : Nat → Reader → Except GoError Bytes

/-- Everything RunE calls outside cmd/sign.go: configuration lookup, the file
system, file-type sniffing, the OIDC flow, key generation, encoding helpers, the
issuance client and the transparency-log client. -/
structure Env where
  GetString : String → String
  IsSet : String → Bool
  ReadFile : String → Except GoError Bytes
  GetFileType : String → Except GoError String
  FindString : String → Bool
  OIDConnect : String → String → String → Except GoError OIDCIDToken
  NewDefaultECDSASignerVerifier : Except GoError ECDSASignerVerifier
  MarshalPublicKeyToDER : PublicKey → Except GoError Bytes
  GetCert : OIDCIDToken → Bytes → Bytes → String → Except GoError SigningCertCreated
  UnmarshalCertificatesFromPEM : Bytes → Except GoError (List Certificate)
  MarshalCertificateToPEM : Certificate → Except GoError Bytes
  UploadToRekor : Bytes → Bytes → String → Bytes → Except GoError String
  WriteFile : String → Bytes → Nat → Option GoError

/-- A line printed on the console. -/
inductive Line where
  | unsupportedFileType (mimetype : String)
  | receivedScope (subject : String)
  | receivedCertificate (serialNumber : Nat)
  | sendingEntry
  | rekorEntry (server : String) (tlogEntry : String)
  deriving DecidableEq, Repr

/-- What RunE does, one constructor per call site, with the arguments passed. -/
inductive Action where
  | ReadFile (path : String)
  | GetFileType (path : String)
  | FindString (mimetype : String)
  | Println (line : Line)
  | OIDConnect (issuer clientID clientSecret : String)
  | NewDefaultECDSASignerVerifier
  | PublicKey
  | MarshalPublicKeyToDER (pub : PublicKey)
  | SignProof (message : Reader)
  | GetCert (idToken : OIDCIDToken) (proof pubBytes : Bytes) (server : String)
  | UnmarshalCertificatesFromPEM (pem : Bytes)
  | MarshalCertificateToPEM (cert : Certificate)
  | SignArtifact (message : Reader)
  | UploadToRekor (signingCertPEM signature : Bytes) (server : String) (payload : Bytes)
  | WriteCert (path : String) (data : Bytes) (perm : Nat)
  | WriteSig (path : String) (data : Bytes) (perm : Nat)
  deriving DecidableEq, Repr

/-- The position in RunE of the call site of an action; a console line has the
position of the call it follows. -/
def Action.stage : Action → Nat
  | .ReadFile _ => 0
  | .GetFileType _ => 1
  | .FindString _ => 2
  | .Println (.unsupportedFileType _) => 2
  | .OIDConnect _ _ _ => 3
  | .Println (.receivedScope _) => 3
  | .NewDefaultECDSASignerVerifier => 4
  | .PublicKey => 5
  | .MarshalPublicKeyToDER _ => 6
  | .SignProof _ => 7
  | .GetCert _ _ _ _ => 8
  | .UnmarshalCertificatesFromPEM _ => 9
  | .MarshalCertificateToPEM _ => 10
  | .Println (.receivedCertificate _) => 10
  | .SignArtifact _ => 11
  | .Println .sendingEntry => 11
  | .UploadToRekor _ _ _ _ => 12
  | .Println (.rekorEntry _ _) => 12
  | .WriteCert _ _ _ => 13
  | .WriteSig _ _ _ => 14

/-- A stage of the ceremony is any action but a console line. -/
def Action.isStage : Action → Bool
  | .Println _ => false
  | _ => true

def Action.isGetCert : Action → Bool
  | .GetCert _ _ _ _ => true
  | _ => false

def Action.isUnmarshal : Action → Bool
  | .UnmarshalCertificatesFromPEM _ => true
  | _ => false

def Action.isSignArtifact : Action → Bool
  | .SignArtifact _ => true
  | _ => false

def Action.isUpload : Action → Bool
  | .UploadToRekor _ _ _ _ => true
  | _ => false

def Action.isWrite : Action → Bool
  | .WriteCert _ _ _ => true
  | .WriteSig _ _ _ => true
  | _ => false

/-- An executed action with the outcome of its call as RunE checks it: ok is
false when the call returned an error, when the file type is not supported and
when the parsed certificate chain is empty. -/
structure Event where
  action : Action
  ok : Bool
  deriving DecidableEq, Repr

/-- How a run of RunE ends: a return with an error or nil (none), a process
exit, or a panic. -/
inductive Outcome where
  | returned (err : Option GoError)
  | exited (code : Nat)
  | panicked (msg : String)
  deriving DecidableEq, Repr

/-- The events `evs` happen, and then the rest of the run. -/
def thenRun (evs : List Event) (rest : Outcome × List Event) : Outcome × List Event :=
  (rest.1, evs ++ rest.2)

/-- Lines 138 to 153 of RunE: the optional writes of the certificate and of the
signature, and the nil return. -/
def RunE.writeOutputs (env : Env) (signingCertPEM signature : Bytes) : Outcome × List Event :=
  let sigOut : Outcome × List Event :=
    if env.IsSet "sig-out" then
      match env.WriteFile (env.GetString "sig-out") signature 0o600 with
      | some err =>
        (.returned (some err), [⟨.WriteSig (env.GetString "sig-out") signature 0o600, false⟩])
      | none => (.returned none, [⟨.WriteSig (env.GetString "sig-out") signature 0o600, true⟩])
    else (.returned none, [])
  if env.IsSet "cert-out" then
    match env.WriteFile (env.GetString "cert-out") signingCertPEM 0o600 with
    | some err =>
      (.returned (some err),
        [⟨.WriteCert (env.GetString "cert-out") signingCertPEM 0o600, false⟩])
    | none =>
      thenRun [⟨.WriteCert (env.GetString "cert-out") signingCertPEM 0o600, true⟩] sigOut
  else sigOut

/-- Lines 120 to 136 of RunE: the signature over the artifact and the upload to
the transparency log; then lines 138 to 153. -/
def RunE.signAndRecord (env : Env) (payload : Bytes) (signer : ECDSASignerVerifier)
    (signingCertPEM : Bytes) : Outcome × List Event :=
  let artifact : Reader := ⟨payload, none⟩
  match signer.SignMessage 1 artifact with
  | .error err =>
    (.panicked ("Error occurred while during artifact signing: " ++ err.Error),
      [⟨.SignArtifact artifact, false⟩])
  | .ok signature =>
  thenRun [⟨.SignArtifact artifact, true⟩, ⟨.Println .sendingEntry, true⟩] <|
  let upload : Action :=
    .UploadToRekor signingCertPEM signature (env.GetString "rekor-server") payload
  match env.UploadToRekor signingCertPEM signature (env.GetString "rekor-server") payload with
  | .error err => (.returned (some err), [⟨upload, false⟩])
  | .ok tlogEntry =>
  thenRun [⟨upload, true⟩,
    ⟨.Println (.rekorEntry (env.GetString "rekor-server") tlogEntry), true⟩] <|
  RunE.writeOutputs env signingCertPEM signature

/-- Lines 106 to 118 of RunE: the certificates of the response are parsed, an
empty chain is an error, and the first certificate becomes the signing
certificate; then lines 120 to 153. -/
def RunE.useResponse (env : Env) (payload : Bytes) (signer : ECDSASignerVerifier)
    (certResp : SigningCertCreated) : Outcome × List Event :=
  let pem := bytesOf certResp.Payload
  match env.UnmarshalCertificatesFromPEM pem with
  | .error err => (.returned (some err), [⟨.UnmarshalCertificatesFromPEM pem, false⟩])
  | .ok [] =>
    (.returned (some (.errorString "no certificates were found in response")),
      [⟨.UnmarshalCertificatesFromPEM pem, false⟩])
  | .ok (signingCert :: _) =>
  thenRun [⟨.UnmarshalCertificatesFromPEM pem, true⟩] <|
  match env.MarshalCertificateToPEM signingCert with
  | .error err => (.returned (some err), [⟨.MarshalCertificateToPEM signingCert, false⟩])
  | .ok signingCertPEM =>
  thenRun [⟨.MarshalCertificateToPEM signingCert, true⟩,
    ⟨.Println (.receivedCertificate signingCert.SerialNumber), true⟩] <|
  RunE.signAndRecord env payload signer signingCertPEM

/-- Lines 93 to 104 of RunE: the issuance call and the switch on its error; then
lines 106 to 153. -/
def RunE.requestCertificate (env : Env) (payload : Bytes) (signer : ECDSASignerVerifier)
    (idToken : OIDCIDToken) (proof pubBytes : Bytes) : Outcome × List Event :=
  let issue : Action := .GetCert idToken proof pubBytes (env.GetString "fulcio-server")
  match env.GetCert idToken proof pubBytes (env.GetString "fulcio-server") with
  | .error err =>
    match err with
    | .SigningCertDefault code _ =>
      if code = 500 then (.returned (some err), [⟨issue, false⟩])
      else (.exited 1, [⟨issue, false⟩])
    | _ => (.returned (some err), [⟨issue, false⟩])
  | .ok certResp =>
  thenRun [⟨issue, true⟩] <|
  RunE.useResponse env payload signer certResp

/-- The body of signCmd.RunE: how the run ends, and the events in order. Lines 46
to 91 are below; the rest of the body follows in requestCertificate (93 to 104),
useResponse (106 to 118), signAndRecord (120 to 136) and writeOutputs (138 to
153). -/
def RunE (env : Env) : Outcome × List Event :=
  match env.ReadFile (env.GetString "artifact") with
  | .error err => (.returned (some err), [⟨.ReadFile (env.GetString "artifact"), false⟩])
  | .ok payload =>
  thenRun [⟨.ReadFile (env.GetString "artifact"), true⟩] <|
  match env.GetFileType (env.GetString "artifact") with
  | .error err => (.returned (some err), [⟨.GetFileType (env.GetString "artifact"), false⟩])
  | .ok mimetype =>
  thenRun [⟨.GetFileType (env.GetString "artifact"), true⟩] <|
  if !env.FindString mimetype then
    (.exited 1, [⟨.FindString mimetype, false⟩, ⟨.Println (.unsupportedFileType mimetype), true⟩])
  else
  thenRun [⟨.FindString mimetype, true⟩] <|
  let oidc : Action := .OIDConnect (env.GetString "oidc-issuer") (env.GetString "oidc-client-id")
    (env.GetString "oidc-client-secret")
  match env.OIDConnect (env.GetString "oidc-issuer") (env.GetString "oidc-client-id")
    (env.GetString "oidc-client-secret") with
  | .error err => (.returned (some err), [⟨oidc, false⟩])
  | .ok idToken =>
  thenRun [⟨oidc, true⟩, ⟨.Println (.receivedScope idToken.Subject), true⟩] <|
  match env.NewDefaultECDSASignerVerifier with
  | .error err => (.returned (some err), [⟨.NewDefaultECDSASignerVerifier, false⟩])
  | .ok signer =>
  thenRun [⟨.NewDefaultECDSASignerVerifier, true⟩] <|
  match signer.PublicKey with
  | .error err => (.returned (some err), [⟨.PublicKey, false⟩])
  | .ok pub =>
  thenRun [⟨.PublicKey, true⟩] <|
  match env.MarshalPublicKeyToDER pub with
  | .error err => (.returned (some err), [⟨.MarshalPublicKeyToDER pub, false⟩])
  | .ok pubBytes =>
  thenRun [⟨.MarshalPublicKeyToDER pub, true⟩] <|
  let subject : Reader := ⟨bytesOf idToken.Subject, none⟩
  match signer.SignMessage 0 subject with
  | .error err => (.returned (some err), [⟨.SignProof subject, false⟩])
  | .ok proof =>
  thenRun [⟨.SignProof subject, true⟩] <|
  RunE.requestCertificate env payload signer idToken proof pubBytes

/-! ## Trace predicates for the ceremony -/

/-- Checks that in a trace every event satisfying `q` comes after some event
satisfying `p`. -/
def precededBy (p q : Event → Bool) : List Event → Bool
  | [] => true
  | e :: es => !q e && (p e || precededBy p q es)

/-- Checks that in a trace no stage follows an event that failed. -/
def stopsAtFailure : List Event → Bool
  | [] => true
  | e :: es => if e.ok then stopsAtFailure es else es.all (fun x => !x.action.isStage)

/-- How an action of the ceremony uses the signing certificate `c`: it is the
certificate marshalled to PEM, its serial number is the one printed, and its PEM
form is what is uploaded to the log and written to cert-out. -/
def Action.usesSigningCert (env : Env) (c : Certificate) : Action → Prop
  | .MarshalCertificateToPEM cert => cert = c
  | .Println (.receivedCertificate n) => n = c.SerialNumber
  | .UploadToRekor signingCertPEM _ _ _ => env.MarshalCertificateToPEM c = .ok signingCertPEM
  | .WriteCert _ data _ => env.MarshalCertificateToPEM c = .ok data
  | _ => True

/-- Whether a call returned a result and no error. -/
def succeeded {α : Type} (r : Except GoError α) : Bool :=
  match r with
  | .ok _ => true
  | .error _ => false

/-- The outcome, in the environment, of the call an action stands for, as RunE
checks it: the call returns no error; the file type is supported; the parsed
chain has a first certificate. The two signatures are made by the signer the
environment creates, the proof of possession by its first SignMessage call and
the artifact signature by its second. A console line always succeeds. -/
def Action.passes (env : Env) : Action → Bool
  | .ReadFile path => succeeded (env.ReadFile path)
  | .GetFileType path => succeeded (env.GetFileType path)
  | .FindString mimetype => env.FindString mimetype
  | .Println _ => true
  | .OIDConnect issuer clientID clientSecret =>
    succeeded (env.OIDConnect issuer clientID clientSecret)
  | .NewDefaultECDSASignerVerifier => succeeded env.NewDefaultECDSASignerVerifier
  | .PublicKey =>
    match env.NewDefaultECDSASignerVerifier with
    | .ok signer => succeeded signer.PublicKey
    | .error _ => false
  | .MarshalPublicKeyToDER pub => succeeded (env.MarshalPublicKeyToDER pub)
  | .SignProof message =>
    match env.NewDefaultECDSASignerVerifier with
    | .ok signer => succeeded (signer.SignMessage 0 message)
    | .error _ => false
  | .GetCert idToken proof pubBytes server =>
    succeeded (env.GetCert idToken proof pubBytes server)
  | .UnmarshalCertificatesFromPEM pem =>
    match env.UnmarshalCertificatesFromPEM pem with
    | .ok (_ :: _) => true
    | _ => false
  | .MarshalCertificateToPEM cert => succeeded (env.MarshalCertificateToPEM cert)
  | .SignArtifact message =>
    match env.NewDefaultECDSASignerVerifier with
    | .ok signer => succeeded (signer.SignMessage 1 message)
    | .error _ => false
  | .UploadToRekor signingCertPEM signature server payload =>
    succeeded (env.UploadToRekor signingCertPEM signature server payload)
  | .WriteCert path data perm => (env.WriteFile path data perm).isNone
  | .WriteSig path data perm => (env.WriteFile path data perm).isNone

/-! ## Fixtures: a concrete runtime and backend on which the embedding is evaluated -/

/-- A runtime whose contexts replace one another and whose digest of a byte
string is the string tagged with the hash function. -/
def rt0 : Runtime :=
  { Background := 0, applyContext := fun c _ => c, hashSum := fun h data => h :: data }

/-- A backend whose default hash function is SHA-256, whose signature is the
digest tagged with the hash function, and whose verifications accept. -/
def client0 : awsClient :=
  { getHashFunc := fun _ => .ok crypto.SHA256
    sign := fun _ digest hf => .ok (hf :: digest)
    verify := fun _ _ _ _ => none
    verifyRemotely := fun _ _ _ => none }

def sv0 : SignerVerifier := ⟨client0⟩

/-- A signer whose public key is fixed and whose n-th signature is the byte n. -/
def signer0 : ECDSASignerVerifier :=
  { PublicKey := .ok ⟨[4]⟩, SignMessage := fun n _ => .ok [n] }

/-- A signer that signs the proof of possession and fails on the artifact. -/
def signerArtifactFails : ECDSASignerVerifier :=
  { PublicKey := .ok ⟨[4]⟩
    SignMessage := fun n _ => if n = 0 then .ok [0] else .error (.errorString "signing failed") }

/-- A signer that fails on the proof of possession. -/
def signerProofFails : ECDSASignerVerifier :=
  { PublicKey := .ok ⟨[4]⟩, SignMessage := fun _ _ => .error (.errorString "signing failed") }

/-- An environment in which every call succeeds: the artifact is "hello", the
issuance service returns a chain of two certificates with serial numbers 42 and
43, the log returns the locator "abc123", and both output paths are set. -/
def env0 : Env :=
  { GetString := fun key => key
    IsSet := fun _ => true
    ReadFile := fun _ => .ok [104, 101, 108, 108, 111]
    GetFileType := fun _ => .ok "text/plain"
    FindString := fun _ => true
    OIDConnect := fun _ _ _ => .ok ⟨"raw", "alice@example.com"⟩
    NewDefaultECDSASignerVerifier := .ok signer0
    MarshalPublicKeyToDER := fun pub => .ok pub.key
    GetCert := fun _ _ _ _ => .ok ⟨"chain"⟩
    UnmarshalCertificatesFromPEM := fun _ => .ok [⟨42, [1]⟩, ⟨43, [2]⟩]
    MarshalCertificateToPEM := fun cert => .ok cert.Raw
    UploadToRekor := fun _ _ _ _ => .ok "abc123"
    WriteFile := fun _ _ _ => none }

/-- As env0, but the issuance response parses into no certificate. -/
def envEmptyChain : Env :=
  { env0 with UnmarshalCertificatesFromPEM := fun _ => .ok [] }

/-- As env0, but the issuance service answers with status 400. -/
def envRejected : Env :=
  { env0 with GetCert := fun _ _ _ _ => .error (.SigningCertDefault 400 "bad request") }

/-- As env0, but the issuance service answers with status 500. -/
def envInternal : Env :=
  { env0 with GetCert := fun _ _ _ _ => .error (.SigningCertDefault 500 "internal error") }

/-- As env0, but signing the artifact fails. -/
def envArtifactFails : Env :=
  { env0 with NewDefaultECDSASignerVerifier := .ok signerArtifactFails }

/-- As env0, but signing the proof of possession fails. -/
def envProofFails : Env :=
  { env0 with NewDefaultECDSASignerVerifier := .ok signerProofFails }

/-- As env0, but the file type of the artifact is not supported. -/
def envUnsupported : Env :=
  { env0 with FindString := fun _ => false }

/-- As env0, but every write to a file fails. -/
def envWriteFails : Env :=
  { env0 with WriteFile := fun _ _ _ => some (.errorString "write failed") }

/-! ## The option loops -/

theorem signLoop_eq (rt : Runtime) (opts : List SignOption) (ctx : Context) (digest : Bytes) :
    signLoop rt opts ctx digest = (resolveContext rt opts ctx, resolveDigest opts digest) := by
  induction opts generalizing ctx digest with
  | nil => rfl
  | cons o os ih =>
    simp only [signLoop, resolveContext, resolveDigest, List.foldl_cons] at ih ⊢
    exact ih _ _

theorem verifyLoop_eq (rt : Runtime) (opts : List VerifyOption) (ctx : Context) (digest : Bytes)
    (flag : Bool) :
    verifyLoop rt opts ctx digest flag =
      (resolveContext rt opts ctx, resolveDigest opts digest,
        resolveRemoteVerification opts flag) := by
  induction opts generalizing ctx digest flag with
  | nil => rfl
  | cons o os ih =>
    simp only [verifyLoop, resolveContext, resolveDigest, resolveRemoteVerification,
      List.foldl_cons] at ih ⊢
    exact ih _ _ _

theorem resolveDigest_of_no_digest (opts : List RPCOption) (digest : Bytes)
    (h : ∀ o ∈ opts, o.isDigest = false) : resolveDigest opts digest = digest := by
  induction opts generalizing digest with
  | nil => rfl
  | cons o os ih =>
    have ho : o.isDigest = false := h o (List.mem_cons_self _ _)
    have hos : ∀ x ∈ os, x.isDigest = false := fun x hx => h x (List.mem_cons_of_mem _ hx)
    have hstep : o.ApplyDigest digest = digest := by
      cases o <;> simp_all [RPCOption.ApplyDigest, RPCOption.isDigest]
    simp only [resolveDigest, List.foldl_cons, hstep]
    exact ih digest hos

theorem resolveDigest_last (pre post : List RPCOption) (d digest : Bytes)
    (h : ∀ o ∈ post, o.isDigest = false) :
    resolveDigest (pre ++ RPCOption.WithDigest d :: post) digest = d := by
  have := resolveDigest_of_no_digest post d h
  simpa [resolveDigest, List.foldl_append, RPCOption.ApplyDigest] using this

theorem resolveSignerOpts_of_no_override (opts : List RPCOption) (s : crypto.SignerOpts)
    (h : ∀ o ∈ opts, o.isCryptoSignerOpts = false) : resolveSignerOpts opts s = s := by
  induction opts generalizing s with
  | nil => rfl
  | cons o os ih =>
    have ho : o.isCryptoSignerOpts = false := h o (List.mem_cons_self _ _)
    have hos : ∀ x ∈ os, x.isCryptoSignerOpts = false :=
      fun x hx => h x (List.mem_cons_of_mem _ hx)
    have hstep : o.ApplyCryptoSignerOpts s = s := by
      cases o <;> simp_all [RPCOption.ApplyCryptoSignerOpts, RPCOption.isCryptoSignerOpts]
    simp only [resolveSignerOpts, List.foldl_cons, hstep]
    exact ih s hos

theorem resolveSignerOpts_last (pre post : List RPCOption) (so s : crypto.SignerOpts)
    (h : ∀ o ∈ post, o.isCryptoSignerOpts = false) :
    resolveSignerOpts (pre ++ RPCOption.WithCryptoSignerOpts so :: post) s = so := by
  have := resolveSignerOpts_of_no_override post so h
  simpa [resolveSignerOpts, List.foldl_append, RPCOption.ApplyCryptoSignerOpts] using this

/-- Applying the options again to the hash function they resolved to changes
nothing: the hash function ComputeDigestForSigning settles on is the one
SignMessage passed in. -/
theorem resolveSignerOpts_HashFunc_idem (opts : List RPCOption) (s : crypto.SignerOpts) :
    (resolveSignerOpts opts (.hash (resolveSignerOpts opts s).HashFunc)).HashFunc =
      (resolveSignerOpts opts s).HashFunc := by
  induction opts using List.reverseRecOn with
  | nil => rfl
  | append_singleton l o ih =>
    cases o <;>
      simp_all [resolveSignerOpts, List.foldl_append, RPCOption.ApplyCryptoSignerOpts,
        crypto.SignerOpts.HashFunc]

/-! ## SignMessage -/

/-- SignMessage when fetching the default hash function fails. -/
theorem SignMessage_getHashFunc_error (rt : Runtime) (a : SignerVerifier)
    (message : Option Reader) (opts : List SignOption) (err : GoError)
    (hdef : a.client.getHashFunc (resolveContext rt opts rt.Background) = .error err) :
    a.SignMessage rt message opts =
      (.error (.withMessage err "getting fetching default hash function"),
        [.getHashFunc (resolveContext rt opts rt.Background)]) := by
  simp [SignerVerifier.SignMessage, signLoop_eq, hdef]

/-- SignMessage when the options resolve to a non-empty digest. -/
theorem SignMessage_digest_path (rt : Runtime) (a : SignerVerifier) (message : Option Reader)
    (opts : List SignOption) (dflt : crypto.Hash)
    (hne : resolveDigest opts [] ≠ [])
    (hdef : a.client.getHashFunc (resolveContext rt opts rt.Background) = .ok dflt) :
    a.SignMessage rt message opts =
      (a.client.sign (resolveContext rt opts rt.Background) (resolveDigest opts [])
          (resolveSignerOpts opts (.hash dflt)).HashFunc,
        [.getHashFunc (resolveContext rt opts rt.Background),
          .sign (resolveContext rt opts rt.Background) (resolveDigest opts [])
            (resolveSignerOpts opts (.hash dflt)).HashFunc]) := by
  simp [SignerVerifier.SignMessage, signLoop_eq, hdef, hne]

/-- SignMessage when the options resolve to no digest and the resolved hash
function is not supported. -/
theorem SignMessage_unsupported (rt : Runtime) (a : SignerVerifier) (message : Option Reader)
    (opts : List SignOption) (dflt : crypto.Hash)
    (hd : resolveDigest opts [] = [])
    (hdef : a.client.getHashFunc (resolveContext rt opts rt.Background) = .ok dflt)
    (hh : (resolveSignerOpts opts (.hash dflt)).HashFunc ∉ awsSupportedHashFuncs) :
    a.SignMessage rt message opts =
      (.error (.UnsupportedHashError (resolveSignerOpts opts (.hash dflt)).HashFunc),
        [.getHashFunc (resolveContext rt opts rt.Background)]) := by
  simp [SignerVerifier.SignMessage, signLoop_eq, hdef, hd, ComputeDigestForSigning,
    resolveSignerOpts_HashFunc_idem, hh]

/-- SignMessage when the options resolve to no digest, the resolved hash
function is supported and the message stream yields its bytes. -/
theorem SignMessage_hashes (rt : Runtime) (a : SignerVerifier) (P : Bytes)
    (opts : List SignOption) (dflt : crypto.Hash)
    (hd : resolveDigest opts [] = [])
    (hdef : a.client.getHashFunc (resolveContext rt opts rt.Background) = .ok dflt)
    (hh : (resolveSignerOpts opts (.hash dflt)).HashFunc ∈ awsSupportedHashFuncs) :
    a.SignMessage rt (some ⟨P, none⟩) opts =
      (a.client.sign (resolveContext rt opts rt.Background)
          (rt.hashSum (resolveSignerOpts opts (.hash dflt)).HashFunc P)
          (resolveSignerOpts opts (.hash dflt)).HashFunc,
        [.getHashFunc (resolveContext rt opts rt.Background), .readMessage,
          .sign (resolveContext rt opts rt.Background)
            (rt.hashSum (resolveSignerOpts opts (.hash dflt)).HashFunc P)
            (resolveSignerOpts opts (.hash dflt)).HashFunc]) := by
  simp [SignerVerifier.SignMessage, signLoop_eq, hdef, hd, ComputeDigestForSigning,
    resolveSignerOpts_HashFunc_idem, hh, Reader.ReadAll]

/-- C1, as stated, fails: with a digest option present SignMessage makes no check
of the hash function. On the options WithDigest [1, 2, 3] and
WithCryptoSignerOpts SHA-1 the resolved hash function SHA-1 is not in
awsSupportedHashFuncs, yet SignMessage returns a signature and the raw sign
primitive is called with the digest and SHA-1. -/
theorem SignMessage_digest_skips_hash_gate :
    (resolveSignerOpts
        [RPCOption.WithDigest [1, 2, 3], RPCOption.WithCryptoSignerOpts (.hash crypto.SHA1)]
        (.hash crypto.SHA256)).HashFunc ∉ awsSupportedHashFuncs ∧
      sv0.SignMessage rt0 none
          [RPCOption.WithDigest [1, 2, 3], RPCOption.WithCryptoSignerOpts (.hash crypto.SHA1)] =
        (.ok [3, 1, 2, 3], [Call.getHashFunc 0, Call.sign 0 [1, 2, 3] crypto.SHA1]) := by
  constructor
  · decide
  · rfl

/-- C1 (amended): whenever the options resolve to no digest (in particular when
there is no digest option) and the resolved hash function, the last
cryptoSignerOpts override or else the backend default, is not one of
awsSupportedHashFuncs, SignMessage returns an error and the raw sign primitive is
never called; when the default hash function was fetched, the error is
UnsupportedHashError and the fetch is the only call made. -/
theorem SignMessage_unsupported_hash_gate (rt : Runtime) (a : SignerVerifier)
    (message : Option Reader) (opts : List SignOption)
    (hd : resolveDigest opts [] = [])
    (hh : ∀ dflt, a.client.getHashFunc (resolveContext rt opts rt.Background) = .ok dflt →
      (resolveSignerOpts opts (.hash dflt)).HashFunc ∉ awsSupportedHashFuncs) :
    (∃ err, (a.SignMessage rt message opts).1 = .error err) ∧
      (∀ c ∈ (a.SignMessage rt message opts).2, c.isSign = false) ∧
      (∀ dflt, a.client.getHashFunc (resolveContext rt opts rt.Background) = .ok dflt →
        a.SignMessage rt message opts =
          (.error (.UnsupportedHashError (resolveSignerOpts opts (.hash dflt)).HashFunc),
            [.getHashFunc (resolveContext rt opts rt.Background)])) := by
  cases hdef : a.client.getHashFunc (resolveContext rt opts rt.Background) with
  | error err =>
    rw [SignMessage_getHashFunc_error rt a message opts err hdef]
    simp [Call.isSign]
  | ok dflt =>
    rw [SignMessage_unsupported rt a message opts dflt hd hdef (hh dflt hdef)]
    simp [Call.isSign]

theorem SignMessage_unsupported_hash_gate_witness :
    (∃ err, (sv0.SignMessage rt0 (some ⟨[104, 105], none⟩)
        [RPCOption.WithCryptoSignerOpts (.hash crypto.SHA1)]).1 = .error err) ∧
      (∀ c ∈ (sv0.SignMessage rt0 (some ⟨[104, 105], none⟩)
        [RPCOption.WithCryptoSignerOpts (.hash crypto.SHA1)]).2, c.isSign = false) ∧
      (∀ dflt, sv0.client.getHashFunc
          (resolveContext rt0 [RPCOption.WithCryptoSignerOpts (.hash crypto.SHA1)]
            rt0.Background) = .ok dflt →
        sv0.SignMessage rt0 (some ⟨[104, 105], none⟩)
            [RPCOption.WithCryptoSignerOpts (.hash crypto.SHA1)] =
          (.error (.UnsupportedHashError
              (resolveSignerOpts [RPCOption.WithCryptoSignerOpts (.hash crypto.SHA1)]
                (.hash dflt)).HashFunc),
            [.getHashFunc
              (resolveContext rt0 [RPCOption.WithCryptoSignerOpts (.hash crypto.SHA1)]
                rt0.Background)])) :=
  SignMessage_unsupported_hash_gate rt0 sv0 (some ⟨[104, 105], none⟩)
    [RPCOption.WithCryptoSignerOpts (.hash crypto.SHA1)] rfl
    (fun _ _ => show crypto.SHA1 ∉ awsSupportedHashFuncs by decide)

/-- C2: for every payload P and every hash function H of awsSupportedHashFuncs,
when SignMessage is called on a stream yielding P with no digest option and H is
the resolved hash function (the cryptoSignerOpts override if given, else the
backend default), the raw sign primitive is handed the hash of P under H together
with H, and SignMessage returns what the primitive returns. -/
theorem SignMessage_digest_resolution (rt : Runtime) (a : SignerVerifier) (P : Bytes)
    (H dflt : crypto.Hash) (opts : List SignOption)
    (hnone : ∀ o ∈ opts, o.isDigest = false)
    (hdef : a.client.getHashFunc (resolveContext rt opts rt.Background) = .ok dflt)
    (hH : (resolveSignerOpts opts (.hash dflt)).HashFunc = H)
    (hsup : H ∈ awsSupportedHashFuncs) :
    a.SignMessage rt (some ⟨P, none⟩) opts =
      (a.client.sign (resolveContext rt opts rt.Background) (rt.hashSum H P) H,
        [.getHashFunc (resolveContext rt opts rt.Background), .readMessage,
          .sign (resolveContext rt opts rt.Background) (rt.hashSum H P) H]) := by
  subst hH
  exact SignMessage_hashes rt a P opts dflt (resolveDigest_of_no_digest opts [] hnone) hdef hsup

theorem SignMessage_digest_resolution_witness :
    sv0.SignMessage rt0 (some ⟨[104, 105], none⟩)
        [RPCOption.WithContext 7, RPCOption.WithCryptoSignerOpts (.hash crypto.SHA384)] =
      (sv0.client.sign
          (resolveContext rt0
            [RPCOption.WithContext 7, RPCOption.WithCryptoSignerOpts (.hash crypto.SHA384)]
            rt0.Background)
          (rt0.hashSum crypto.SHA384 [104, 105]) crypto.SHA384,
        [.getHashFunc
            (resolveContext rt0
              [RPCOption.WithContext 7, RPCOption.WithCryptoSignerOpts (.hash crypto.SHA384)]
              rt0.Background),
          .readMessage,
          .sign
            (resolveContext rt0
              [RPCOption.WithContext 7, RPCOption.WithCryptoSignerOpts (.hash crypto.SHA384)]
              rt0.Background)
            (rt0.hashSum crypto.SHA384 [104, 105]) crypto.SHA384]) :=
  SignMessage_digest_resolution rt0 sv0 [104, 105] crypto.SHA384 crypto.SHA256
    [RPCOption.WithContext 7, RPCOption.WithCryptoSignerOpts (.hash crypto.SHA384)]
    (by decide) rfl rfl (by decide)

/-- C3: for every non-empty digest d supplied through the digest option (the last
one, when there are several), SignMessage hands exactly d, unhashed, to the raw
sign primitive together with the resolved hash function, and never reads the
message: the result and the calls are those of a call with a nil message. -/
theorem SignMessage_digest_verbatim (rt : Runtime) (a : SignerVerifier)
    (message : Option Reader) (pre post : List SignOption) (d : Bytes)
    (hpost : ∀ o ∈ post, o.isDigest = false) (hne : d ≠ []) :
    a.SignMessage rt message (pre ++ RPCOption.WithDigest d :: post) =
        a.SignMessage rt none (pre ++ RPCOption.WithDigest d :: post) ∧
      (∀ c ∈ (a.SignMessage rt message (pre ++ RPCOption.WithDigest d :: post)).2,
        c.isReadMessage = false) ∧
      (∀ dflt,
        a.client.getHashFunc
            (resolveContext rt (pre ++ RPCOption.WithDigest d :: post) rt.Background) =
          .ok dflt →
        a.SignMessage rt message (pre ++ RPCOption.WithDigest d :: post) =
          (a.client.sign
              (resolveContext rt (pre ++ RPCOption.WithDigest d :: post) rt.Background) d
              (resolveSignerOpts (pre ++ RPCOption.WithDigest d :: post) (.hash dflt)).HashFunc,
            [.getHashFunc
                (resolveContext rt (pre ++ RPCOption.WithDigest d :: post) rt.Background),
              .sign (resolveContext rt (pre ++ RPCOption.WithDigest d :: post) rt.Background) d
                (resolveSignerOpts (pre ++ RPCOption.WithDigest d :: post)
                  (.hash dflt)).HashFunc])) := by
  have hd : resolveDigest (pre ++ RPCOption.WithDigest d :: post) [] = d :=
    resolveDigest_last pre post d [] hpost
  have hne2 : resolveDigest (pre ++ RPCOption.WithDigest d :: post) [] ≠ [] := by
    rw [hd]; exact hne
  cases hdef : a.client.getHashFunc
      (resolveContext rt (pre ++ RPCOption.WithDigest d :: post) rt.Background) with
  | error err =>
    rw [SignMessage_getHashFunc_error rt a message _ err hdef,
      SignMessage_getHashFunc_error rt a none _ err hdef]
    simp [Call.isReadMessage]
  | ok dflt =>
    rw [SignMessage_digest_path rt a message _ dflt hne2 hdef,
      SignMessage_digest_path rt a none _ dflt hne2 hdef, hd]
    simp [Call.isReadMessage]

theorem SignMessage_digest_verbatim_witness :
    sv0.SignMessage rt0 (some ⟨[104, 105], none⟩)
          ([RPCOption.WithDigest [9]] ++ RPCOption.WithDigest [1, 2, 3] :: [RPCOption.NoOp]) =
        sv0.SignMessage rt0 none
          ([RPCOption.WithDigest [9]] ++ RPCOption.WithDigest [1, 2, 3] :: [RPCOption.NoOp]) ∧
      sv0.SignMessage rt0 (some ⟨[104, 105], none⟩)
          ([RPCOption.WithDigest [9]] ++ RPCOption.WithDigest [1, 2, 3] :: [RPCOption.NoOp]) =
        (.ok [5, 1, 2, 3], [Call.getHashFunc 0, Call.sign 0 [1, 2, 3] crypto.SHA256]) :=
  have h := SignMessage_digest_verbatim rt0 sv0 (some ⟨[104, 105], none⟩)
    [RPCOption.WithDigest [9]] [RPCOption.NoOp] [1, 2, 3] (by decide) (by decide)
  ⟨h.1, h.2.2 crypto.SHA256 rfl⟩

/-! ## VerifySignature -/

theorem resolveRemoteVerification_of_none_true (opts : List VerifyOption)
    (h : ∀ o ∈ opts, o ≠ RPCOption.WithRemoteVerification true) :
    resolveRemoteVerification opts false = false := by
  induction opts with
  | nil => rfl
  | cons o os ih =>
    have ho : o ≠ RPCOption.WithRemoteVerification true := h o (List.mem_cons_self _ _)
    have hos : ∀ x ∈ os, x ≠ RPCOption.WithRemoteVerification true :=
      fun x hx => h x (List.mem_cons_of_mem _ hx)
    have hstep : o.ApplyRemoteVerification false = false := by
      cases o <;> simp_all [RPCOption.ApplyRemoteVerification]
    simp only [resolveRemoteVerification, List.foldl_cons, hstep]
    exact ih hos

/-- VerifySignature when the resolved flag is false. -/
theorem VerifySignature_local (rt : Runtime) (a : SignerVerifier) (sig : Reader)
    (message : Option Reader) (opts : List VerifyOption)
    (hflag : resolveRemoteVerification opts false = false) :
    a.VerifySignature rt sig message opts =
      (a.client.verify (resolveContext rt opts rt.Background) sig message opts,
        [.verify (resolveContext rt opts rt.Background) sig message opts]) := by
  simp [SignerVerifier.VerifySignature, verifyLoop_eq, hflag]

/-- The only step ComputeDigestForSigning can make is reading the message. -/
theorem ComputeDigestForSigning_calls (rt : Runtime) (rawMessage : Option Reader)
    (hf : crypto.Hash) (supported : List crypto.Hash) (opts : List SignOption) :
    (ComputeDigestForSigning rt rawMessage hf supported opts).2 = [] ∨
      (ComputeDigestForSigning rt rawMessage hf supported opts).2 = [.readMessage] := by
  unfold ComputeDigestForSigning
  simp only []
  split
  · split
    · split
      · simp
      · split <;> simp
    · simp
  · simp

/-- The digest resolution of the remote path never calls the local verify
primitive. -/
theorem resolveDigestForVerifying_no_verify (rt : Runtime) (a : SignerVerifier)
    (message : Option Reader) (opts : List VerifyOption) (ctx : Context) (digest : Bytes) :
    ∀ c ∈ (a.resolveDigestForVerifying rt message opts ctx digest).2, c.isVerify = false := by
  unfold SignerVerifier.resolveDigestForVerifying
  cases a.client.getHashFunc ctx with
  | error err => simp [Call.isVerify]
  | ok dflt =>
    simp only []
    split
    · have htr := ComputeDigestForSigning_calls rt message
        (resolveSignerOpts opts (.hash dflt)).HashFunc awsSupportedHashFuncs opts
      unfold ComputeDigestForVerifying
      rcases hcd : ComputeDigestForSigning rt message
        (resolveSignerOpts opts (.hash dflt)).HashFunc awsSupportedHashFuncs opts with ⟨r, tr⟩
      rw [hcd] at htr
      simp only at htr
      cases r with
      | error e => rcases htr with h | h <;> simp [h, Call.isVerify]
      | ok v => rcases htr with h | h <;> simp [h, Call.isVerify]
    · simp [Call.isVerify]

/-- VerifySignature when the resolved flag is true. -/
theorem VerifySignature_remote (rt : Runtime) (a : SignerVerifier) (sig : Reader)
    (message : Option Reader) (opts : List VerifyOption)
    (hflag : resolveRemoteVerification opts false = true) :
    a.VerifySignature rt sig message opts =
      match a.resolveDigestForVerifying rt message opts (resolveContext rt opts rt.Background)
          (resolveDigest opts []) with
      | (.error err, tr) => (some err, tr)
      | (.ok digest, tr) =>
        match sig.ReadAll with
        | .error err => (some (.withMessage err "reading signature"), tr ++ [.readSignature])
        | .ok sigBytes =>
          (a.client.verifyRemotely (resolveContext rt opts rt.Background) sigBytes digest,
            tr ++ [.readSignature,
              .verifyRemotely (resolveContext rt opts rt.Background) sigBytes digest]) := by
  simp [SignerVerifier.VerifySignature, verifyLoop_eq, hflag]

/-- The digest resolution of the remote path when the options resolve to a
non-empty digest. -/
theorem resolveDigestForVerifying_digest_path (rt : Runtime) (a : SignerVerifier)
    (message : Option Reader) (opts : List VerifyOption) (ctx : Context) (digest : Bytes)
    (dflt : crypto.Hash) (hne : digest ≠ []) (hdef : a.client.getHashFunc ctx = .ok dflt) :
    a.resolveDigestForVerifying rt message opts ctx digest = (.ok digest, [.getHashFunc ctx]) := by
  simp [SignerVerifier.resolveDigestForVerifying, hdef, hne]

/-- C5: if no remoteVerification option sets the flag to true, VerifySignature
returns exactly what the local verify primitive returns and that call is the only
one made (verifyRemotely is never called); if the resolved flag is true, the
local verify primitive is never called and, when digest resolution succeeds with
a digest and the signature stream yields its bytes, VerifySignature returns
exactly what verifyRemotely returns on those bytes and that digest. -/
theorem VerifySignature_dispatch (rt : Runtime) (a : SignerVerifier) (sig : Reader)
    (message : Option Reader) (opts : List VerifyOption) :
    ((∀ o ∈ opts, o ≠ RPCOption.WithRemoteVerification true) →
        a.VerifySignature rt sig message opts =
            (a.client.verify (resolveContext rt opts rt.Background) sig message opts,
              [.verify (resolveContext rt opts rt.Background) sig message opts]) ∧
          ∀ c ∈ (a.VerifySignature rt sig message opts).2, c.isVerifyRemotely = false) ∧
      (resolveRemoteVerification opts false = true →
        (∀ c ∈ (a.VerifySignature rt sig message opts).2, c.isVerify = false) ∧
          ∀ digest tr sigBytes,
            a.resolveDigestForVerifying rt message opts (resolveContext rt opts rt.Background)
                (resolveDigest opts []) = (.ok digest, tr) →
            sig.ReadAll = .ok sigBytes →
            a.VerifySignature rt sig message opts =
              (a.client.verifyRemotely (resolveContext rt opts rt.Background) sigBytes digest,
                tr ++ [.readSignature,
                  .verifyRemotely (resolveContext rt opts rt.Background) sigBytes digest])) := by
  refine ⟨fun h => ?_, fun hflag => ⟨?_, ?_⟩⟩
  · have hlocal := VerifySignature_local rt a sig message opts
      (resolveRemoteVerification_of_none_true opts h)
    refine ⟨hlocal, ?_⟩
    rw [hlocal]
    simp [Call.isVerifyRemotely]
  · have hnv := resolveDigestForVerifying_no_verify rt a message opts
      (resolveContext rt opts rt.Background) (resolveDigest opts [])
    rw [VerifySignature_remote rt a sig message opts hflag]
    rcases hres : a.resolveDigestForVerifying rt message opts
      (resolveContext rt opts rt.Background) (resolveDigest opts []) with ⟨r, tr⟩
    rw [hres] at hnv
    simp only at hnv
    cases r with
    | error err => simpa using hnv
    | ok digest =>
      cases sig.ReadAll with
      | error err =>
        intro c hc
        simp only [List.mem_append, List.mem_singleton] at hc
        rcases hc with hc | hc
        · exact hnv c hc
        · subst hc; rfl
      | ok sigBytes =>
        intro c hc
        simp only [List.mem_append, List.mem_cons, List.mem_singleton, List.not_mem_nil,
          or_false] at hc
        rcases hc with hc | hc | hc
        · exact hnv c hc
        · subst hc; rfl
        · subst hc; rfl
  · intro digest tr sigBytes hres hsig
    rw [VerifySignature_remote rt a sig message opts hflag, hres]
    simp [hsig]

theorem VerifySignature_dispatch_witness :
    sv0.VerifySignature rt0 ⟨[7, 7], none⟩ (some ⟨[104, 105], none⟩) [RPCOption.WithContext 4] =
        (none, [Call.verify 4 ⟨[7, 7], none⟩ (some ⟨[104, 105], none⟩)
          [RPCOption.WithContext 4]]) ∧
      sv0.VerifySignature rt0 ⟨[7, 7], none⟩ (some ⟨[104, 105], none⟩)
          [RPCOption.WithRemoteVerification true] =
        (none, [Call.getHashFunc 0, Call.readMessage, Call.readSignature,
          Call.verifyRemotely 0 [7, 7] [5, 104, 105]]) :=
  ⟨((VerifySignature_dispatch rt0 sv0 ⟨[7, 7], none⟩ (some ⟨[104, 105], none⟩)
      [RPCOption.WithContext 4]).1 (by decide)).1,
    ((VerifySignature_dispatch rt0 sv0 ⟨[7, 7], none⟩ (some ⟨[104, 105], none⟩)
      [RPCOption.WithRemoteVerification true]).2 rfl).2 [5, 104, 105]
      [Call.getHashFunc 0, Call.readMessage] [7, 7] rfl rfl⟩

/-! ## Option precedence -/

/-- C4: in SignMessage and in the remote path of VerifySignature the digest left
by the option loop is that of the last digest option of the list, and the signer
options left by the override loop are those of the last cryptoSignerOpts option;
a non-empty resolved digest and the resolved hash function are what the sign
primitive receives, and the resolved digest is what verifyRemotely receives. -/
theorem last_option_wins (rt : Runtime) (a : SignerVerifier) (sig : Reader)
    (message : Option Reader) (opts : List RPCOption) :
    (∀ pre post d, opts = pre ++ RPCOption.WithDigest d :: post →
        (∀ o ∈ post, o.isDigest = false) →
        (signLoop rt opts rt.Background []).2 = d ∧
          (verifyLoop rt opts rt.Background [] false).2.1 = d ∧ resolveDigest opts [] = d) ∧
      (∀ pre post so init, opts = pre ++ RPCOption.WithCryptoSignerOpts so :: post →
        (∀ o ∈ post, o.isCryptoSignerOpts = false) →
        resolveSignerOpts opts init = so) ∧
      (∀ dflt, resolveDigest opts [] ≠ [] →
        a.client.getHashFunc (resolveContext rt opts rt.Background) = .ok dflt →
        a.SignMessage rt message opts =
          (a.client.sign (resolveContext rt opts rt.Background) (resolveDigest opts [])
              (resolveSignerOpts opts (.hash dflt)).HashFunc,
            [.getHashFunc (resolveContext rt opts rt.Background),
              .sign (resolveContext rt opts rt.Background) (resolveDigest opts [])
                (resolveSignerOpts opts (.hash dflt)).HashFunc])) ∧
      (∀ dflt sigBytes, resolveRemoteVerification opts false = true →
        resolveDigest opts [] ≠ [] →
        a.client.getHashFunc (resolveContext rt opts rt.Background) = .ok dflt →
        sig.ReadAll = .ok sigBytes →
        a.VerifySignature rt sig message opts =
          (a.client.verifyRemotely (resolveContext rt opts rt.Background) sigBytes
              (resolveDigest opts []),
            [.getHashFunc (resolveContext rt opts rt.Background), .readSignature,
              .verifyRemotely (resolveContext rt opts rt.Background) sigBytes
                (resolveDigest opts [])])) := by
  refine ⟨?_, ?_, ?_, ?_⟩
  · intro pre post d hopts hpost
    subst hopts
    simp [signLoop_eq, verifyLoop_eq, resolveDigest_last pre post d [] hpost]
  · intro pre post so init hopts hpost
    subst hopts
    exact resolveSignerOpts_last pre post so init hpost
  · intro dflt hne hdef
    exact SignMessage_digest_path rt a message opts dflt hne hdef
  · intro dflt sigBytes hflag hne hdef hsig
    rw [VerifySignature_remote rt a sig message opts hflag,
      resolveDigestForVerifying_digest_path rt a message opts _ _ dflt hne hdef]
    simp [hsig]

theorem last_option_wins_witness :
    resolveDigest
        [RPCOption.WithDigest [1], RPCOption.WithCryptoSignerOpts (.hash crypto.SHA384),
          RPCOption.WithDigest [2, 2], RPCOption.WithCryptoSignerOpts (.hash crypto.SHA512)]
        [] = [2, 2] ∧
      resolveSignerOpts
        [RPCOption.WithDigest [1], RPCOption.WithCryptoSignerOpts (.hash crypto.SHA384),
          RPCOption.WithDigest [2, 2], RPCOption.WithCryptoSignerOpts (.hash crypto.SHA512)]
        (.hash crypto.SHA256) = .hash crypto.SHA512 ∧
      sv0.SignMessage rt0 none
        [RPCOption.WithDigest [1], RPCOption.WithCryptoSignerOpts (.hash crypto.SHA384),
          RPCOption.WithDigest [2, 2], RPCOption.WithCryptoSignerOpts (.hash crypto.SHA512)] =
        (.ok [7, 2, 2], [Call.getHashFunc 0, Call.sign 0 [2, 2] crypto.SHA512]) :=
  have h := last_option_wins rt0 sv0 ⟨[], none⟩ none
    [RPCOption.WithDigest [1], RPCOption.WithCryptoSignerOpts (.hash crypto.SHA384),
      RPCOption.WithDigest [2, 2], RPCOption.WithCryptoSignerOpts (.hash crypto.SHA512)]
  ⟨(h.1 [RPCOption.WithDigest [1], RPCOption.WithCryptoSignerOpts (.hash crypto.SHA384)]
      [RPCOption.WithCryptoSignerOpts (.hash crypto.SHA512)] [2, 2] rfl (by decide)).2.2,
    h.2.1 [RPCOption.WithDigest [1], RPCOption.WithCryptoSignerOpts (.hash crypto.SHA384),
      RPCOption.WithDigest [2, 2]] [] (.hash crypto.SHA512) (.hash crypto.SHA256) rfl
      (by decide),
    h.2.2.1 crypto.SHA256 (by decide) rfl⟩

/-! ## The generic-signer adapter -/

/-- C6: for every non-empty digest d and caller options o, Sign of the wrapper
built by CryptoSigner returns exactly what the adapter of §4.3 returns, that is
SignMessage on a nil message with the wrapper's context, d pre-supplied and the
override h, where h is the hash function of o when o is given and the backend
default captured by CryptoSigner when o is nil; the random source has no effect;
and, the default hash function fetched, the sign primitive receives d and h. -/
theorem cryptoSignerWrapper_Sign_refines (rt : Runtime) (a : SignerVerifier) (ctx : Context)
    (errFunc : Option (GoError → Unit)) (csw : cryptoSignerWrapper)
    (defaultOpts : crypto.SignerOpts) (tr : List Call) (rand : Option Reader) (d : Bytes)
    (o : Option crypto.SignerOpts) (hne : d ≠ [])
    (hcs : a.CryptoSigner ctx errFunc = (.ok (csw, defaultOpts), tr)) :
    ∃ backendDefault, a.client.getHashFunc ctx = .ok backendDefault ∧
      defaultOpts = .hash backendDefault ∧
      csw.Sign rt rand d o = SignSpec rt a ctx backendDefault d o ∧
      (∀ rand2, csw.Sign rt rand2 d o = csw.Sign rt rand d o) ∧
      (∀ dflt, a.client.getHashFunc (rt.applyContext ctx rt.Background) = .ok dflt →
        csw.Sign rt rand d o =
          (a.client.sign (rt.applyContext ctx rt.Background) d
              ((o.map crypto.SignerOpts.HashFunc).getD backendDefault),
            [.getHashFunc (rt.applyContext ctx rt.Background),
              .sign (rt.applyContext ctx rt.Background) d
                ((o.map crypto.SignerOpts.HashFunc).getD backendDefault)])) := by
  unfold SignerVerifier.CryptoSigner at hcs
  cases hdef : a.client.getHashFunc ctx with
  | error err => simp [hdef] at hcs
  | ok backendDefault =>
    simp only [hdef, Prod.mk.injEq, Except.ok.injEq] at hcs
    obtain ⟨⟨hcsw, hopts⟩, -⟩ := hcs
    subst hcsw
    refine ⟨backendDefault, rfl, hopts.symm, ?_, fun _ => rfl, ?_⟩
    · cases o <;> rfl
    · intro dflt hdflt
      have hspec : cryptoSignerWrapper.Sign rt
          { ctx := ctx, sv := a, hashFunc := backendDefault, errFunc := errFunc } rand d o =
          a.SignMessage rt none
            [.WithContext ctx, .WithDigest d,
              .WithCryptoSignerOpts
                (.hash ((o.map crypto.SignerOpts.HashFunc).getD backendDefault))] := by
        cases o <;> rfl
      rw [hspec]
      exact SignMessage_digest_path rt a none _ dflt (by simpa [resolveDigest,
        RPCOption.ApplyDigest] using hne) hdflt

theorem cryptoSignerWrapper_Sign_refines_witness :
    ∃ backendDefault, sv0.client.getHashFunc 3 = .ok backendDefault ∧
      crypto.SignerOpts.hash crypto.SHA256 = .hash backendDefault ∧
      cryptoSignerWrapper.Sign rt0 ⟨3, crypto.SHA256, sv0, none⟩ (some ⟨[0], none⟩) [1, 2, 3]
          none = SignSpec rt0 sv0 3 backendDefault [1, 2, 3] none ∧
      (∀ rand2, cryptoSignerWrapper.Sign rt0 ⟨3, crypto.SHA256, sv0, none⟩ rand2 [1, 2, 3]
          none =
        cryptoSignerWrapper.Sign rt0 ⟨3, crypto.SHA256, sv0, none⟩ (some ⟨[0], none⟩)
          [1, 2, 3] none) ∧
      (∀ dflt, sv0.client.getHashFunc (rt0.applyContext 3 rt0.Background) = .ok dflt →
        cryptoSignerWrapper.Sign rt0 ⟨3, crypto.SHA256, sv0, none⟩ (some ⟨[0], none⟩)
            [1, 2, 3] none =
          (sv0.client.sign (rt0.applyContext 3 rt0.Background) [1, 2, 3]
              ((Option.map crypto.SignerOpts.HashFunc none).getD backendDefault),
            [.getHashFunc (rt0.applyContext 3 rt0.Background),
              .sign (rt0.applyContext 3 rt0.Background) [1, 2, 3]
                ((Option.map crypto.SignerOpts.HashFunc none).getD backendDefault)])) :=
  cryptoSignerWrapper_Sign_refines rt0 sv0 3 none ⟨3, crypto.SHA256, sv0, none⟩
    (.hash crypto.SHA256) [Call.getHashFunc 3] (some ⟨[0], none⟩) [1, 2, 3] none (by decide) rfl

/-! ## The sign ceremony: traces -/

theorem thenRun_fst (evs : List Event) (r : Outcome × List Event) : (thenRun evs r).1 = r.1 :=
  rfl

theorem thenRun_snd (evs : List Event) (r : Outcome × List Event) :
    (thenRun evs r).2 = evs ++ r.2 :=
  rfl

theorem thenRun_mk (evs : List Event) (o : Outcome) (tr : List Event) :
    thenRun evs (o, tr) = (o, evs ++ tr) :=
  rfl

theorem thenRun_thenRun (evs1 evs2 : List Event) (r : Outcome × List Event) :
    thenRun evs1 (thenRun evs2 r) = thenRun (evs1 ++ evs2) r := by
  simp [thenRun]

theorem mem_thenRun (e : Event) (evs : List Event) (r : Outcome × List Event) :
    e ∈ (thenRun evs r).2 ↔ e ∈ evs ∨ e ∈ r.2 := by
  simp [thenRun]

theorem precededBy_sound (p q : Event → Bool) (tr : List Event)
    (h : precededBy p q tr = true) (l1 : List Event) (e : Event) (l2 : List Event)
    (htr : tr = l1 ++ e :: l2) (hq : q e = true) : ∃ e1 ∈ l1, p e1 = true := by
  induction tr generalizing l1 with
  | nil => simp at htr
  | cons x xs ih =>
    simp only [precededBy, Bool.and_eq_true, Bool.not_eq_true', Bool.or_eq_true] at h
    cases l1 with
    | nil =>
      simp only [List.nil_append, List.cons.injEq] at htr
      obtain ⟨hx, -⟩ := htr
      subst hx
      rw [hq] at h
      exact absurd h.1 (by decide)
    | cons y ys =>
      simp only [List.cons_append, List.cons.injEq] at htr
      obtain ⟨hx, hxs⟩ := htr
      subst hx
      rcases h.2 with hp | hrest
      · exact ⟨x, List.mem_cons_self _ _, hp⟩
      · obtain ⟨e1, he1, hpe1⟩ := ih hrest ys hxs
        exact ⟨e1, List.mem_cons_of_mem _ he1, hpe1⟩

theorem stopsAtFailure_sound (tr : List Event) (h : stopsAtFailure tr = true)
    (l1 : List Event) (e : Event) (l2 : List Event) (htr : tr = l1 ++ e :: l2)
    (hfail : e.ok = false) : ∀ e2 ∈ l2, e2.action.isStage = false := by
  induction tr generalizing l1 with
  | nil => simp at htr
  | cons x xs ih =>
    cases l1 with
    | nil =>
      simp only [List.nil_append, List.cons.injEq] at htr
      obtain ⟨hx, hxs⟩ := htr
      subst hx hxs
      simp only [stopsAtFailure, hfail, Bool.false_eq_true, if_false, List.all_eq_true,
        Bool.not_eq_true'] at h
      exact h
    | cons y ys =>
      simp only [List.cons_append, List.cons.injEq] at htr
      obtain ⟨hx, hxs⟩ := htr
      subst hx
      by_cases hok : x.ok = true
      · simp only [stopsAtFailure, hok, if_true] at h
        exact ih h ys hxs
      · simp only [stopsAtFailure, hok, Bool.false_eq_true, if_false, List.all_eq_true,
          Bool.not_eq_true'] at h
        intro e2 he2
        exact h e2 (by rw [hxs]; simp [he2])

theorem precededBy_append (p q : Event → Bool) (pre rest : List Event)
    (hpre : pre.all (fun e => !q e) = true) (hrest : precededBy p q rest = true) :
    precededBy p q (pre ++ rest) = true := by
  induction pre with
  | nil => simpa using hrest
  | cons x xs ih =>
    simp only [List.all_cons, Bool.and_eq_true, Bool.not_eq_true'] at hpre
    simp [precededBy, hpre.1, ih hpre.2]

theorem precededBy_append_hit (p q : Event → Bool) (pre rest : List Event)
    (hpre : pre.all (fun e => !q e) = true) (hhit : pre.any p = true) :
    precededBy p q (pre ++ rest) = true := by
  induction pre with
  | nil => simp at hhit
  | cons x xs ih =>
    simp only [List.all_cons, Bool.and_eq_true, Bool.not_eq_true'] at hpre
    simp only [List.any_cons, Bool.or_eq_true] at hhit
    rcases hhit with hx | hxs
    · simp [precededBy, hpre.1, hx]
    · simp [precededBy, hpre.1, ih hpre.2 hxs]

theorem stopsAtFailure_append (pre rest : List Event) (hpre : pre.all (fun e => e.ok) = true)
    (hrest : stopsAtFailure rest = true) : stopsAtFailure (pre ++ rest) = true := by
  induction pre with
  | nil => simpa using hrest
  | cons x xs ih =>
    simp only [List.all_cons, Bool.and_eq_true] at hpre
    simp [stopsAtFailure, hpre.1, ih hpre.2]

theorem all_thenRun (f : Event → Bool) (evs : List Event) (r : Outcome × List Event)
    (h1 : evs.all f = true) (h2 : r.2.all f = true) : (thenRun evs r).2.all f = true := by
  simp [thenRun, List.all_append, h1, h2]

theorem precededBy_thenRun (p q : Event → Bool) (evs : List Event) (r : Outcome × List Event)
    (h1 : evs.all (fun e => !q e) = true) (h2 : precededBy p q r.2 = true) :
    precededBy p q (thenRun evs r).2 = true :=
  precededBy_append p q evs r.2 h1 h2

theorem precededBy_thenRun_hit (p q : Event → Bool) (evs : List Event)
    (r : Outcome × List Event) (h1 : evs.all (fun e => !q e) = true) (h2 : evs.any p = true) :
    precededBy p q (thenRun evs r).2 = true :=
  precededBy_append_hit p q evs r.2 h1 h2

theorem stopsAtFailure_thenRun (evs : List Event) (r : Outcome × List Event)
    (h1 : evs.all (fun e => e.ok) = true) (h2 : stopsAtFailure r.2 = true) :
    stopsAtFailure (thenRun evs r).2 = true :=
  stopsAtFailure_append evs r.2 h1 h2

theorem any_thenRun_left (f : Event → Bool) (evs : List Event) (r : Outcome × List Event)
    (h : evs.any f = true) :
    (thenRun evs r).1 = .returned none → (thenRun evs r).2.any f = true := by
  intro _
  simp [thenRun, List.any_append, h]

theorem any_thenRun_right (f : Event → Bool) (evs : List Event) (r : Outcome × List Event)
    (h : r.1 = .returned none → r.2.any f = true) :
    (thenRun evs r).1 = .returned none → (thenRun evs r).2.any f = true := by
  intro h0
  simp [thenRun, List.any_append, h h0]

/-- The position of the call sites the claims speak of. -/
theorem Action.stage_of_kind (a : Action) :
    (a.isGetCert = true → a.stage = 8) ∧ (a.isUnmarshal = true → a.stage = 9) ∧
      (a.isSignArtifact = true → a.stage = 11) ∧ (a.isUpload = true → a.stage = 12) ∧
      (a.isWrite = true → 13 ≤ a.stage) := by
  cases a <;>
    simp [Action.isGetCert, Action.isUnmarshal, Action.isSignArtifact, Action.isUpload,
      Action.isWrite, Action.stage]

theorem all_stage_mono (k j : Nat) (h : j ≤ k) (tr : List Event)
    (htr : tr.all (fun e => decide (k ≤ e.action.stage)) = true) :
    tr.all (fun e => decide (j ≤ e.action.stage)) = true := by
  simp only [List.all_eq_true, decide_eq_true_eq] at htr ⊢
  exact fun e he => Nat.le_trans h (htr e he)

theorem not_mem_of_stage (k : Nat) (tr : List Event)
    (htr : tr.all (fun e => decide (k ≤ e.action.stage)) = true) (a : Action) (ok : Bool)
    (h : a.stage < k) : ⟨a, ok⟩ ∉ tr := by
  simp only [List.all_eq_true, decide_eq_true_eq] at htr
  intro hmem
  have := htr _ hmem
  simp only at this
  omega

/-! ### The blocks of RunE, last to first: call sites -/

theorem writeOutputs_stage (env : Env) (pem sig : Bytes) :
    (RunE.writeOutputs env pem sig).2.all (fun e => decide (13 ≤ e.action.stage)) = true := by
  simp only [RunE.writeOutputs]
  repeat' split
  all_goals rfl

theorem signAndRecord_stage (env : Env) (payload : Bytes) (signer : ECDSASignerVerifier)
    (pem : Bytes) :
    (RunE.signAndRecord env payload signer pem).2.all (fun e => decide (11 ≤ e.action.stage)) =
      true := by
  simp only [RunE.signAndRecord]
  repeat' split
  all_goals repeat (first | rfl | refine all_thenRun _ _ _ rfl ?_)
  all_goals exact all_stage_mono 13 11 (by decide) _ (writeOutputs_stage env _ _)

theorem useResponse_stage (env : Env) (payload : Bytes) (signer : ECDSASignerVerifier)
    (certResp : SigningCertCreated) :
    (RunE.useResponse env payload signer certResp).2.all
      (fun e => decide (9 ≤ e.action.stage)) = true := by
  simp only [RunE.useResponse]
  repeat' split
  all_goals repeat (first | rfl | refine all_thenRun _ _ _ rfl ?_)
  all_goals exact all_stage_mono 11 9 (by decide) _ (signAndRecord_stage env _ _ _)

theorem requestCertificate_stage (env : Env) (payload : Bytes) (signer : ECDSASignerVerifier)
    (idToken : OIDCIDToken) (proof pubBytes : Bytes) :
    (RunE.requestCertificate env payload signer idToken proof pubBytes).2.all
      (fun e => decide (8 ≤ e.action.stage)) = true := by
  simp only [RunE.requestCertificate]
  repeat' split
  all_goals repeat (first | rfl | refine all_thenRun _ _ _ rfl ?_)
  all_goals exact all_stage_mono 9 8 (by decide) _ (useResponse_stage env _ _ _)

/-! ### Sequencing, block by block -/

theorem writeOutputs_checks (env : Env) (pem sig : Bytes) :
    stopsAtFailure (RunE.writeOutputs env pem sig).2 = true := by
  simp only [RunE.writeOutputs]
  repeat' split
  all_goals rfl

theorem signAndRecord_checks (env : Env) (payload : Bytes) (signer : ECDSASignerVerifier)
    (pem : Bytes) :
    precededBy (fun e => e.action.isUpload && e.ok) (fun e => e.action.isWrite)
        (RunE.signAndRecord env payload signer pem).2 = true ∧
      stopsAtFailure (RunE.signAndRecord env payload signer pem).2 = true ∧
      ((RunE.signAndRecord env payload signer pem).1 = .returned none →
        (RunE.signAndRecord env payload signer pem).2.any
          (fun e => e.action.isUpload && e.ok) = true) := by
  simp only [RunE.signAndRecord]
  repeat' split
  all_goals refine ⟨?_, ?_, ?_⟩
  all_goals repeat (first
    | rfl
    | (intro h; cases h)
    | refine precededBy_thenRun_hit _ _ _ _ rfl rfl
    | refine precededBy_thenRun _ _ _ _ rfl ?_
    | refine stopsAtFailure_thenRun _ _ rfl ?_
    | exact writeOutputs_checks env _ _
    | exact any_thenRun_left _ _ _ rfl
    | refine any_thenRun_right _ _ _ ?_)

theorem useResponse_checks (env : Env) (payload : Bytes) (signer : ECDSASignerVerifier)
    (certResp : SigningCertCreated) :
    precededBy (fun e => e.action.isUnmarshal && e.ok) (fun e => e.action.isSignArtifact)
        (RunE.useResponse env payload signer certResp).2 = true ∧
      precededBy (fun e => e.action.isUpload && e.ok) (fun e => e.action.isWrite)
        (RunE.useResponse env payload signer certResp).2 = true ∧
      stopsAtFailure (RunE.useResponse env payload signer certResp).2 = true ∧
      ((RunE.useResponse env payload signer certResp).1 = .returned none →
        (RunE.useResponse env payload signer certResp).2.any
          (fun e => e.action.isUpload && e.ok) = true) := by
  simp only [RunE.useResponse]
  repeat' split
  all_goals refine ⟨?_, ?_, ?_, ?_⟩
  all_goals repeat (first
    | rfl
    | (intro h; cases h)
    | refine precededBy_thenRun_hit _ _ _ _ rfl rfl
    | refine precededBy_thenRun _ _ _ _ rfl ?_
    | refine stopsAtFailure_thenRun _ _ rfl ?_
    | exact (signAndRecord_checks env _ _ _).1
    | exact (signAndRecord_checks env _ _ _).2.1
    | exact (signAndRecord_checks env _ _ _).2.2
    | refine any_thenRun_right _ _ _ ?_)

theorem requestCertificate_checks (env : Env) (payload : Bytes) (signer : ECDSASignerVerifier)
    (idToken : OIDCIDToken) (proof pubBytes : Bytes) :
    precededBy (fun e => e.action.isGetCert && e.ok) (fun e => e.action.isSignArtifact)
        (RunE.requestCertificate env payload signer idToken proof pubBytes).2 = true ∧
      precededBy (fun e => e.action.isUnmarshal && e.ok) (fun e => e.action.isSignArtifact)
        (RunE.requestCertificate env payload signer idToken proof pubBytes).2 = true ∧
      precededBy (fun e => e.action.isUpload && e.ok) (fun e => e.action.isWrite)
        (RunE.requestCertificate env payload signer idToken proof pubBytes).2 = true ∧
      stopsAtFailure (RunE.requestCertificate env payload signer idToken proof pubBytes).2 =
        true ∧
      ((RunE.requestCertificate env payload signer idToken proof pubBytes).1 = .returned none →
        (RunE.requestCertificate env payload signer idToken proof pubBytes).2.any
          (fun e => e.action.isUpload && e.ok) = true) := by
  simp only [RunE.requestCertificate]
  repeat' split
  all_goals refine ⟨?_, ?_, ?_, ?_, ?_⟩
  all_goals repeat (first
    | rfl
    | (intro h; cases h)
    | refine precededBy_thenRun_hit _ _ _ _ rfl rfl
    | refine precededBy_thenRun _ _ _ _ rfl ?_
    | refine stopsAtFailure_thenRun _ _ rfl ?_
    | exact (useResponse_checks env _ _ _).1
    | exact (useResponse_checks env _ _ _).2.1
    | exact (useResponse_checks env _ _ _).2.2.1
    | exact (useResponse_checks env _ _ _).2.2.2
    | refine any_thenRun_right _ _ _ ?_)

/-! ### Lines 46 to 91 -/

/-- A run either ends before the issuance call, with an error or a process exit
and only events of the first call sites, or it reaches the issuance call after
events that all succeeded. -/
theorem RunE_prelude (env : Env) :
    (∃ o tr, RunE env = (o, tr) ∧ o ≠ .returned none ∧
        tr.all (fun e => decide (e.action.stage < 8)) = true ∧ stopsAtFailure tr = true ∧
        ∀ m, ⟨.SignProof m, false⟩ ∈ tr →
          ∃ signer err, env.NewDefaultECDSASignerVerifier = .ok signer ∧
            signer.SignMessage 0 m = .error err ∧ o = .returned (some err)) ∨
      (∃ payload signer idToken proof pubBytes pre,
        env.NewDefaultECDSASignerVerifier = .ok signer ∧
          pre.all (fun e => e.ok && decide (e.action.stage < 8)) = true ∧
          RunE env =
            thenRun pre (RunE.requestCertificate env payload signer idToken proof pubBytes)) := by
  simp only [RunE]
  repeat' split
  all_goals try simp only [thenRun_thenRun, thenRun_mk]
  all_goals first
    | (refine Or.inr ⟨_, _, _, _, _, _, ‹_›, ?_, rfl⟩
       rfl)
    | (refine Or.inl ⟨_, _, rfl, (fun h => by cases h), rfl, rfl, ?_⟩
       simp_all)

/-- An event of the issuance call or of a later call site is in the trace only
if the run reached the issuance call. -/
theorem RunE_late (env : Env) (e : Event) (hstage : 8 ≤ e.action.stage)
    (hmem : e ∈ (RunE env).2) :
    ∃ payload signer idToken proof pubBytes pre,
      env.NewDefaultECDSASignerVerifier = .ok signer ∧
        pre.all (fun e => e.ok && decide (e.action.stage < 8)) = true ∧
        RunE env =
          thenRun pre (RunE.requestCertificate env payload signer idToken proof pubBytes) ∧
        e ∈ (RunE.requestCertificate env payload signer idToken proof pubBytes).2 := by
  rcases RunE_prelude env with ⟨o, tr, hrun, -, hall, -, -⟩ |
    ⟨payload, signer, idToken, proof, pubBytes, pre, hsigner, hpre, hrun⟩
  · rw [hrun] at hmem
    simp only [List.all_eq_true, decide_eq_true_eq] at hall
    have := hall e hmem
    omega
  · refine ⟨payload, signer, idToken, proof, pubBytes, pre, hsigner, hpre, hrun, ?_⟩
    rw [hrun, mem_thenRun] at hmem
    rcases hmem with hmem | hmem
    · simp only [List.all_eq_true, Bool.and_eq_true, decide_eq_true_eq] at hpre
      have := (hpre e hmem).2
      omega
    · exact hmem

/-- The checks of the sequencing invariant hold on the trace of every run. -/
theorem RunE_trace_checks (env : Env) :
    precededBy (fun e => e.action.isGetCert && e.ok) (fun e => e.action.isSignArtifact)
        (RunE env).2 = true ∧
      precededBy (fun e => e.action.isUnmarshal && e.ok) (fun e => e.action.isSignArtifact)
        (RunE env).2 = true ∧
      precededBy (fun e => e.action.isUpload && e.ok) (fun e => e.action.isWrite)
        (RunE env).2 = true ∧
      stopsAtFailure (RunE env).2 = true ∧
      ((RunE env).1 = .returned none →
        (RunE env).2.any (fun e => e.action.isUpload && e.ok) = true) := by
  have hkind : ∀ tr : List Event, tr.all (fun e => decide (e.action.stage < 8)) = true →
      tr.all (fun e => !e.action.isSignArtifact) = true ∧
        tr.all (fun e => !e.action.isWrite) = true := by
    intro tr htr
    simp only [List.all_eq_true, decide_eq_true_eq, Bool.not_eq_true'] at htr ⊢
    constructor
    · intro e he
      have h8 := htr e he
      have h11 := (Action.stage_of_kind e.action).2.2.1
      cases hk : e.action.isSignArtifact
      · rfl
      · have := h11 hk
        omega
    · intro e he
      have h8 := htr e he
      have h13 := (Action.stage_of_kind e.action).2.2.2.2
      cases hk : e.action.isWrite
      · rfl
      · have := h13 hk
        omega
  rcases RunE_prelude env with ⟨o, tr, hrun, ho, hall, hstop, -⟩ |
    ⟨payload, signer, idToken, proof, pubBytes, pre, -, hpre, hrun⟩
  · rw [hrun]
    obtain ⟨hsign, hwrite⟩ := hkind tr hall
    refine ⟨?_, ?_, ?_, hstop, fun h => absurd h ho⟩
    · simpa using precededBy_append _ _ tr [] hsign rfl
    · simpa using precededBy_append _ _ tr [] hsign rfl
    · simpa using precededBy_append _ _ tr [] hwrite rfl
  · rw [hrun]
    have hpre8 : pre.all (fun e => decide (e.action.stage < 8)) = true := by
      simp only [List.all_eq_true, Bool.and_eq_true, decide_eq_true_eq] at hpre ⊢
      exact fun e he => (hpre e he).2
    have hok : pre.all (fun e => e.ok) = true := by
      simp only [List.all_eq_true, Bool.and_eq_true, decide_eq_true_eq] at hpre ⊢
      exact fun e he => (hpre e he).1
    obtain ⟨hsign, hwrite⟩ := hkind pre hpre8
    obtain ⟨h1, h2, h3, h4, h5⟩ :=
      requestCertificate_checks env payload signer idToken proof pubBytes
    exact ⟨precededBy_thenRun _ _ _ _ hsign h1, precededBy_thenRun _ _ _ _ hsign h2,
      precededBy_thenRun _ _ _ _ hwrite h3, stopsAtFailure_thenRun _ _ hok h4,
      any_thenRun_right _ _ _ h5⟩

/-! ### Events and the calls they stand for -/

theorem writeOutputs_not_mem (env : Env) (pem sig : Bytes) (a : Action) (ok : Bool)
    (h : a.stage < 13) : ⟨a, ok⟩ ∉ (RunE.writeOutputs env pem sig).2 :=
  not_mem_of_stage 13 _ (writeOutputs_stage env pem sig) a ok h

theorem signAndRecord_not_mem (env : Env) (payload : Bytes) (signer : ECDSASignerVerifier)
    (pem : Bytes) (a : Action) (ok : Bool) (h : a.stage < 11) :
    ⟨a, ok⟩ ∉ (RunE.signAndRecord env payload signer pem).2 :=
  not_mem_of_stage 11 _ (signAndRecord_stage env payload signer pem) a ok h

theorem useResponse_not_mem (env : Env) (payload : Bytes) (signer : ECDSASignerVerifier)
    (certResp : SigningCertCreated) (a : Action) (ok : Bool) (h : a.stage < 9) :
    ⟨a, ok⟩ ∉ (RunE.useResponse env payload signer certResp).2 :=
  not_mem_of_stage 9 _ (useResponse_stage env payload signer certResp) a ok h

theorem signAndRecord_faithful (env : Env) (payload : Bytes) (signer : ECDSASignerVerifier)
    (pem : Bytes) (signingCertPEM signature : Bytes) (server : String) (data : Bytes)
    (h : ⟨.UploadToRekor signingCertPEM signature server data, true⟩ ∈
      (RunE.signAndRecord env payload signer pem).2) :
    ∃ tlogEntry, env.UploadToRekor signingCertPEM signature server data = .ok tlogEntry := by
  revert h
  simp only [RunE.signAndRecord]
  repeat' split
  all_goals simp_all [mem_thenRun, writeOutputs_not_mem, Action.stage]

theorem useResponse_faithful (env : Env) (payload : Bytes) (signer : ECDSASignerVerifier)
    (certResp : SigningCertCreated) :
    (∀ pem, ⟨.UnmarshalCertificatesFromPEM pem, true⟩ ∈
          (RunE.useResponse env payload signer certResp).2 →
        ∃ c cs, env.UnmarshalCertificatesFromPEM pem = .ok (c :: cs)) ∧
      (∀ signingCertPEM signature server data,
        ⟨.UploadToRekor signingCertPEM signature server data, true⟩ ∈
          (RunE.useResponse env payload signer certResp).2 →
        ∃ tlogEntry, env.UploadToRekor signingCertPEM signature server data = .ok tlogEntry) := by
  have hnext := signAndRecord_faithful env payload signer
  simp only [RunE.useResponse]
  repeat' split
  all_goals simp_all [mem_thenRun, signAndRecord_not_mem, Action.stage]
  exact hnext _

theorem requestCertificate_faithful (env : Env) (payload : Bytes)
    (signer : ECDSASignerVerifier) (idToken : OIDCIDToken) (proof pubBytes : Bytes) :
    (∀ tok sig pub server, ⟨.GetCert tok sig pub server, true⟩ ∈
          (RunE.requestCertificate env payload signer idToken proof pubBytes).2 →
        ∃ certResp, env.GetCert tok sig pub server = .ok certResp) ∧
      (∀ pem, ⟨.UnmarshalCertificatesFromPEM pem, true⟩ ∈
          (RunE.requestCertificate env payload signer idToken proof pubBytes).2 →
        ∃ c cs, env.UnmarshalCertificatesFromPEM pem = .ok (c :: cs)) ∧
      (∀ signingCertPEM signature server data,
        ⟨.UploadToRekor signingCertPEM signature server data, true⟩ ∈
          (RunE.requestCertificate env payload signer idToken proof pubBytes).2 →
        ∃ tlogEntry, env.UploadToRekor signingCertPEM signature server data = .ok tlogEntry) := by
  have hnext := useResponse_faithful env payload signer
  simp only [RunE.requestCertificate]
  repeat' split
  all_goals simp_all [mem_thenRun, useResponse_not_mem, Action.stage]
  exact hnext _

/-- An event recorded as successful stands for a call that returned a result. -/
theorem RunE_events_faithful (env : Env) :
    (∀ tok sig pub server, ⟨.GetCert tok sig pub server, true⟩ ∈ (RunE env).2 →
        ∃ certResp, env.GetCert tok sig pub server = .ok certResp) ∧
      (∀ pem, ⟨.UnmarshalCertificatesFromPEM pem, true⟩ ∈ (RunE env).2 →
        ∃ c cs, env.UnmarshalCertificatesFromPEM pem = .ok (c :: cs)) ∧
      (∀ signingCertPEM signature server data,
        ⟨.UploadToRekor signingCertPEM signature server data, true⟩ ∈ (RunE env).2 →
        ∃ tlogEntry, env.UploadToRekor signingCertPEM signature server data = .ok tlogEntry) := by
  refine ⟨?_, ?_, ?_⟩
  · intro tok sig pub server h
    obtain ⟨_, _, _, _, _, _, -, -, -, hmem⟩ := RunE_late env _ (by simp [Action.stage]) h
    exact (requestCertificate_faithful env _ _ _ _ _).1 _ _ _ _ hmem
  · intro pem h
    obtain ⟨_, _, _, _, _, _, -, -, -, hmem⟩ := RunE_late env _ (by simp [Action.stage]) h
    exact (requestCertificate_faithful env _ _ _ _ _).2.1 _ hmem
  · intro a b c d h
    obtain ⟨_, _, _, _, _, _, -, -, -, hmem⟩ := RunE_late env _ (by simp [Action.stage]) h
    exact (requestCertificate_faithful env _ _ _ _ _).2.2 _ _ _ _ hmem

/-! ### The certificate chain -/

theorem usesSigningCert_of_stage (env : Env) (c : Certificate) (a : Action)
    (h : a.stage < 10) : a.usesSigningCert env c := by
  cases a with
  | Println line => cases line <;> simp_all [Action.usesSigningCert, Action.stage]
  | _ => simp_all [Action.usesSigningCert, Action.stage]

theorem writeOutputs_uses (env : Env) (c : Certificate) (pem sig : Bytes)
    (hpem : env.MarshalCertificateToPEM c = .ok pem) :
    ∀ e ∈ (RunE.writeOutputs env pem sig).2, e.action.usesSigningCert env c := by
  simp only [RunE.writeOutputs]
  repeat' split
  all_goals intro e he
  all_goals simp only [mem_thenRun, List.mem_cons, List.mem_singleton, List.not_mem_nil,
    or_false] at he
  all_goals try casesm* _ ∨ _
  all_goals subst_vars
  all_goals trivial

theorem signAndRecord_uses (env : Env) (c : Certificate) (payload : Bytes)
    (signer : ECDSASignerVerifier) (pem : Bytes)
    (hpem : env.MarshalCertificateToPEM c = .ok pem) :
    ∀ e ∈ (RunE.signAndRecord env payload signer pem).2, e.action.usesSigningCert env c := by
  simp only [RunE.signAndRecord]
  repeat' split
  all_goals intro e he
  all_goals simp only [mem_thenRun, List.mem_cons, List.mem_singleton, List.not_mem_nil,
    or_false] at he
  all_goals try casesm* _ ∨ _
  all_goals first
    | exact writeOutputs_uses env c pem _ hpem e ‹_›
    | (subst_vars; trivial)

/-- Lines 106 to 153 on a given response: an empty chain is an error and nothing
is signed or uploaded; otherwise the first certificate of the chain is the one
marshalled, printed, uploaded and written. -/
theorem useResponse_chain (env : Env) (payload : Bytes) (signer : ECDSASignerVerifier)
    (certResp : SigningCertCreated) :
    (env.UnmarshalCertificatesFromPEM (bytesOf certResp.Payload) = .ok [] →
        (RunE.useResponse env payload signer certResp).1 =
            .returned (some (.errorString "no certificates were found in response")) ∧
          (RunE.useResponse env payload signer certResp).2 =
            [⟨.UnmarshalCertificatesFromPEM (bytesOf certResp.Payload), false⟩]) ∧
      (∀ c cs, env.UnmarshalCertificatesFromPEM (bytesOf certResp.Payload) = .ok (c :: cs) →
        (∃ ok, ⟨.MarshalCertificateToPEM c, ok⟩ ∈
            (RunE.useResponse env payload signer certResp).2) ∧
          ∀ e ∈ (RunE.useResponse env payload signer certResp).2,
            e.action.usesSigningCert env c) := by
  constructor
  · intro hempty
    simp [RunE.useResponse, hempty]
  · intro c cs hchain
    simp only [RunE.useResponse, hchain]
    constructor
    · split
      · exact ⟨false, by simp [mem_thenRun]⟩
      · exact ⟨true, by simp [mem_thenRun]⟩
    · split
      all_goals intro e he
      all_goals simp only [mem_thenRun, List.mem_cons, List.mem_singleton, List.not_mem_nil,
        or_false] at he
      all_goals try casesm* _ ∨ _
      all_goals first
        | exact signAndRecord_uses env c payload signer _ ‹_› e ‹_›
        | (subst_vars; trivial)

/-- Lines 93 to 153 when the issuance call returned a response. -/
theorem requestCertificate_chain (env : Env) (payload : Bytes) (signer : ECDSASignerVerifier)
    (idToken : OIDCIDToken) (proof pubBytes : Bytes) (tok : OIDCIDToken) (sig pub : Bytes)
    (server : String) (certResp : SigningCertCreated)
    (hissued : ⟨.GetCert tok sig pub server, true⟩ ∈
      (RunE.requestCertificate env payload signer idToken proof pubBytes).2)
    (hresp : env.GetCert tok sig pub server = .ok certResp) :
    RunE.requestCertificate env payload signer idToken proof pubBytes =
      thenRun [⟨.GetCert tok sig pub server, true⟩]
        (RunE.useResponse env payload signer certResp) := by
  revert hissued
  simp only [RunE.requestCertificate]
  repeat' split
  all_goals simp [mem_thenRun, useResponse_not_mem, Action.stage]
  intro h1 h2 h3 h4
  subst h1 h2 h3 h4
  simp_all

theorem requestCertificate_issuance_error (env : Env) (payload : Bytes)
    (signer : ECDSASignerVerifier) (idToken : OIDCIDToken) (proof pubBytes : Bytes)
    (tok : OIDCIDToken) (sig pub : Bytes) (server : String) (err : GoError)
    (hrun : ⟨.GetCert tok sig pub server, false⟩ ∈
      (RunE.requestCertificate env payload signer idToken proof pubBytes).2)
    (hfail : env.GetCert tok sig pub server = .error err) :
    RunE.requestCertificate env payload signer idToken proof pubBytes =
      ((match err with
        | .SigningCertDefault code _ =>
          if code = 500 then Outcome.returned (some err) else Outcome.exited 1
        | _ => Outcome.returned (some err)),
        [⟨.GetCert tok sig pub server, false⟩]) := by
  revert hrun
  simp only [RunE.requestCertificate]
  split
  · rename_i err2 heq
    intro hmem
    have hargs : tok = idToken ∧ sig = proof ∧ pub = pubBytes ∧
        server = env.GetString "fulcio-server" := by
      revert hmem
      split
      · split <;> simp
      · simp
    obtain ⟨h1, h2, h3, h4⟩ := hargs
    subst h1 h2 h3 h4
    rw [hfail] at heq
    cases heq
    cases err <;> simp
    split <;> rfl
  · simp [mem_thenRun, useResponse_not_mem, Action.stage]

/-! ### The two signatures -/

theorem signAndRecord_signing_error (env : Env) (payload : Bytes)
    (signer : ECDSASignerVerifier) (pem : Bytes) (m : Reader)
    (h : ⟨.SignArtifact m, false⟩ ∈ (RunE.signAndRecord env payload signer pem).2) :
    ∃ err, signer.SignMessage 1 m = .error err ∧
      RunE.signAndRecord env payload signer pem =
        (.panicked ("Error occurred while during artifact signing: " ++ err.Error),
          [⟨.SignArtifact m, false⟩]) := by
  revert h
  simp only [RunE.signAndRecord]
  repeat' split
  all_goals simp [mem_thenRun, writeOutputs_not_mem, Action.stage]
  intro hm
  subst hm
  exact ⟨_, ‹_›, rfl, rfl⟩

theorem useResponse_signing_error (env : Env) (payload : Bytes)
    (signer : ECDSASignerVerifier) (certResp : SigningCertCreated) (m : Reader)
    (h : ⟨.SignArtifact m, false⟩ ∈ (RunE.useResponse env payload signer certResp).2) :
    ∃ err pre, signer.SignMessage 1 m = .error err ∧
      pre.all (fun e => e.ok && decide (e.action.stage < 11)) = true ∧
      RunE.useResponse env payload signer certResp =
        (.panicked ("Error occurred while during artifact signing: " ++ err.Error),
          pre ++ [⟨.SignArtifact m, false⟩]) := by
  revert h
  simp only [RunE.useResponse]
  repeat' split
  all_goals simp only [mem_thenRun, List.mem_cons, List.mem_singleton, List.not_mem_nil,
    Event.mk.injEq, reduceCtorEq, false_and, and_false, or_false, false_or, false_implies,
    and_true]
  intro hmem
  obtain ⟨err, herr, hrun⟩ := signAndRecord_signing_error env payload signer _ m hmem
  refine ⟨err, ?_, herr, ?_, ?_⟩
  case refine_3 =>
    rw [hrun, thenRun_thenRun, thenRun_mk]
    exact rfl
  case refine_2 => rfl

theorem requestCertificate_signing_error (env : Env) (payload : Bytes)
    (signer : ECDSASignerVerifier) (idToken : OIDCIDToken) (proof pubBytes : Bytes)
    (m : Reader)
    (h : ⟨.SignArtifact m, false⟩ ∈
      (RunE.requestCertificate env payload signer idToken proof pubBytes).2) :
    ∃ err pre, signer.SignMessage 1 m = .error err ∧
      pre.all (fun e => e.ok && decide (e.action.stage < 11)) = true ∧
      RunE.requestCertificate env payload signer idToken proof pubBytes =
        (.panicked ("Error occurred while during artifact signing: " ++ err.Error),
          pre ++ [⟨.SignArtifact m, false⟩]) := by
  revert h
  simp only [RunE.requestCertificate]
  repeat' split
  all_goals simp only [mem_thenRun, List.mem_cons, List.mem_singleton, List.not_mem_nil,
    Event.mk.injEq, reduceCtorEq, false_and, and_false, or_false, false_or, false_implies,
    and_true]
  intro hmem
  obtain ⟨err, pre, herr, hpre, hrun⟩ := useResponse_signing_error env payload signer _ m hmem
  refine ⟨err, ⟨.GetCert idToken proof pubBytes (env.GetString "fulcio-server"), true⟩ :: pre,
    herr, ?_, ?_⟩
  · rw [List.all_cons, hpre]
    rfl
  · rw [hrun, thenRun_mk]
    rfl

/-! ### The claims on the ceremony -/

/-- The run of a ceremony that reached the issuance call: its outcome is that of
the rest of the body, and its events are earlier events, all successful, followed
by those of the rest. -/
theorem RunE_of_late (env : Env) (e : Event) (hstage : 8 ≤ e.action.stage)
    (hmem : e ∈ (RunE env).2) :
    ∃ payload signer idToken proof pubBytes pre,
      env.NewDefaultECDSASignerVerifier = .ok signer ∧
        (∀ x ∈ pre, x.ok = true ∧ x.action.stage < 8) ∧
        (RunE env).1 =
          (RunE.requestCertificate env payload signer idToken proof pubBytes).1 ∧
        (RunE env).2 =
          pre ++ (RunE.requestCertificate env payload signer idToken proof pubBytes).2 ∧
        e ∈ (RunE.requestCertificate env payload signer idToken proof pubBytes).2 := by
  obtain ⟨payload, signer, idToken, proof, pubBytes, pre, hsigner, hpre, hrun, hlate⟩ :=
    RunE_late env e hstage hmem
  refine ⟨payload, signer, idToken, proof, pubBytes, pre, hsigner, ?_, ?_, ?_, hlate⟩
  · simpa only [List.all_eq_true, Bool.and_eq_true, decide_eq_true_eq] using hpre
  · rw [hrun]; rfl
  · rw [hrun]; rfl

/-- C7: when the issuance call succeeds and its payload parses into zero
certificates, the ceremony returns the error "no certificates were found in
response" and neither signs the artifact nor uploads to the log; when the parsed
chain is non-empty, the signing certificate of the rest of the ceremony (the one
marshalled to PEM, whose serial number is printed, whose PEM form is uploaded and
written to cert-out) is the first certificate of the chain. -/
theorem RunE_certificate_chain (env : Env) (idToken : OIDCIDToken) (proof pubBytes : Bytes)
    (server : String) (certResp : SigningCertCreated)
    (hissued : ⟨.GetCert idToken proof pubBytes server, true⟩ ∈ (RunE env).2)
    (hresp : env.GetCert idToken proof pubBytes server = .ok certResp) :
    (env.UnmarshalCertificatesFromPEM (bytesOf certResp.Payload) = .ok [] →
        (RunE env).1 =
            .returned (some (.errorString "no certificates were found in response")) ∧
          ∀ e ∈ (RunE env).2, e.action.isSignArtifact = false ∧ e.action.isUpload = false) ∧
      (∀ c cs, env.UnmarshalCertificatesFromPEM (bytesOf certResp.Payload) = .ok (c :: cs) →
        (∃ ok, ⟨.MarshalCertificateToPEM c, ok⟩ ∈ (RunE env).2) ∧
          ∀ e ∈ (RunE env).2, e.action.usesSigningCert env c) := by
  obtain ⟨payload, signer, tok, sig, pub, pre, -, hpre, hout, htr, hlate⟩ :=
    RunE_of_late env _ (by simp [Action.stage]) hissued
  have hreq := requestCertificate_chain env payload signer tok sig pub idToken proof pubBytes
    server certResp hlate hresp
  obtain ⟨hempty, hchain⟩ := useResponse_chain env payload signer certResp
  rw [hout, htr, hreq, thenRun_fst, thenRun_snd]
  constructor
  · intro h0
    obtain ⟨ho, ht⟩ := hempty h0
    refine ⟨ho, ?_⟩
    rw [ht]
    intro e he
    simp only [List.mem_append, List.mem_cons, List.mem_singleton, List.not_mem_nil,
      or_false] at he
    rcases he with he | he | he
    · have h8 := (hpre e he).2
      have hk := Action.stage_of_kind e.action
      constructor
      · cases hs : e.action.isSignArtifact
        · rfl
        · have := hk.2.2.1 hs
          omega
      · cases hs : e.action.isUpload
        · rfl
        · have := hk.2.2.2.1 hs
          omega
    · subst he
      exact ⟨rfl, rfl⟩
    · subst he
      exact ⟨rfl, rfl⟩
  · intro c cs h1
    obtain ⟨⟨ok, hok⟩, huses⟩ := hchain c cs h1
    refine ⟨⟨ok, ?_⟩, ?_⟩
    · simp [hok]
    · intro e he
      simp only [List.mem_append, List.mem_cons, List.mem_singleton, List.not_mem_nil,
        or_false] at he
      rcases he with he | he | he
      · exact usesSigningCert_of_stage env c _ (Nat.lt_trans (hpre e he).2 (by decide))
      · subst he
        trivial
      · exact huses e he

/-- C8 (amended): when the issuance call fails, an error that is not a default
response of the issuance service, or one with status 500, is returned to the
caller; a default response with any other status ends the process with exit code
1; in every case the artifact is never signed. -/
theorem RunE_issuance_failure (env : Env) (idToken : OIDCIDToken) (proof pubBytes : Bytes)
    (server : String) (err : GoError)
    (hrun : ⟨.GetCert idToken proof pubBytes server, false⟩ ∈ (RunE env).2)
    (hfail : env.GetCert idToken proof pubBytes server = .error err) :
    ((∀ code msg, err ≠ .SigningCertDefault code msg) → (RunE env).1 = .returned (some err)) ∧
      (∀ msg, err = .SigningCertDefault 500 msg → (RunE env).1 = .returned (some err)) ∧
      (∀ code msg, err = .SigningCertDefault code msg → code ≠ 500 →
        (RunE env).1 = .exited 1) ∧
      ∀ e ∈ (RunE env).2, e.action.isSignArtifact = false := by
  obtain ⟨payload, signer, tok, sig, pub, pre, -, hpre, hout, htr, hlate⟩ :=
    RunE_of_late env _ (by simp [Action.stage]) hrun
  have hreq := requestCertificate_issuance_error env payload signer tok sig pub idToken proof
    pubBytes server err hlate hfail
  rw [hout, htr, hreq]
  refine ⟨?_, ?_, ?_, ?_⟩
  · intro hother
    cases err with
    | SigningCertDefault code msg => exact absurd rfl (hother code msg)
    | _ => rfl
  · intro msg hmsg
    subst hmsg
    rfl
  · intro code msg hmsg hcode
    subst hmsg
    simp [hcode]
  · intro e he
    simp only [List.mem_append, List.mem_singleton] at he
    rcases he with he | he
    · have h8 := (hpre e he).2
      cases hs : e.action.isSignArtifact
      · rfl
      · have := (Action.stage_of_kind e.action).2.2.1 hs
        omega
    · subst he
      rfl

/-- The sequencing invariant, read on the flags of the events. -/
theorem RunE_recorded_sequencing (env : Env) :
    (∀ l1 e l2, (RunE env).2 = l1 ++ e :: l2 → e.action.isSignArtifact = true →
        (∃ e1 ∈ l1, e1.action.isGetCert = true ∧ e1.ok = true) ∧
          ∃ e2 ∈ l1, e2.action.isUnmarshal = true ∧ e2.ok = true) ∧
      (∀ l1 e l2, (RunE env).2 = l1 ++ e :: l2 → e.action.isWrite = true →
        ∃ e1 ∈ l1, e1.action.isUpload = true ∧ e1.ok = true) ∧
      ((RunE env).1 = .returned none →
        ∃ e ∈ (RunE env).2, e.action.isUpload = true ∧ e.ok = true) ∧
      (∀ l1 e l2, (RunE env).2 = l1 ++ e :: l2 → e.ok = false →
        ∀ e2 ∈ l2, e2.action.isStage = false) ∧
      (∀ idToken proof pubBytes server,
        ⟨.GetCert idToken proof pubBytes server, true⟩ ∈ (RunE env).2 →
        ∃ certResp, env.GetCert idToken proof pubBytes server = .ok certResp) ∧
      (∀ pem, ⟨.UnmarshalCertificatesFromPEM pem, true⟩ ∈ (RunE env).2 →
        ∃ c cs, env.UnmarshalCertificatesFromPEM pem = .ok (c :: cs)) ∧
      (∀ signingCertPEM signature server payload,
        ⟨.UploadToRekor signingCertPEM signature server payload, true⟩ ∈ (RunE env).2 →
        ∃ tlogEntry,
          env.UploadToRekor signingCertPEM signature server payload = .ok tlogEntry) := by
  obtain ⟨h1, h2, h3, h4, h5⟩ := RunE_trace_checks env
  obtain ⟨f1, f2, f3⟩ := RunE_events_faithful env
  refine ⟨?_, ?_, ?_, ?_, f1, f2, f3⟩
  · intro l1 e l2 htr hq
    obtain ⟨e1, he1, hp1⟩ := precededBy_sound _ _ _ h1 l1 e l2 htr hq
    obtain ⟨e2, he2, hp2⟩ := precededBy_sound _ _ _ h2 l1 e l2 htr hq
    simp only [Bool.and_eq_true] at hp1 hp2
    exact ⟨⟨e1, he1, hp1⟩, ⟨e2, he2, hp2⟩⟩
  · intro l1 e l2 htr hq
    obtain ⟨e1, he1, hp1⟩ := precededBy_sound _ _ _ h3 l1 e l2 htr hq
    simp only [Bool.and_eq_true] at hp1
    exact ⟨e1, he1, hp1⟩
  · intro hnil
    have := h5 hnil
    simp only [List.any_eq_true, Bool.and_eq_true] at this
    exact this
  · intro l1 e l2 htr hfail
    exact stopsAtFailure_sound _ h4 l1 e l2 htr hfail

/-- What a run did when one of its two signature events is recorded as failed. -/
theorem RunE_recorded_signing_failure (env : Env) :
    (∀ m, ⟨.SignArtifact m, false⟩ ∈ (RunE env).2 →
        ∃ signer err, env.NewDefaultECDSASignerVerifier = .ok signer ∧
          signer.SignMessage 1 m = .error err ∧
          (RunE env).1 =
            .panicked ("Error occurred while during artifact signing: " ++ err.Error) ∧
          ∀ e ∈ (RunE env).2, e.action.isUpload = false ∧ e.action.isWrite = false) ∧
      (∀ m, ⟨.SignProof m, false⟩ ∈ (RunE env).2 →
        ∃ signer err, env.NewDefaultECDSASignerVerifier = .ok signer ∧
          signer.SignMessage 0 m = .error err ∧ (RunE env).1 = .returned (some err)) := by
  have hnot : ∀ a : Action, a.stage < 12 → a.isUpload = false ∧ a.isWrite = false := by
    intro a ha
    have hk := Action.stage_of_kind a
    constructor
    · cases hs : a.isUpload
      · rfl
      · have := hk.2.2.2.1 hs
        omega
    · cases hs : a.isWrite
      · rfl
      · have := hk.2.2.2.2 hs
        omega
  constructor
  · intro m hm
    obtain ⟨payload, signer, tok, sig, pub, pre, hsigner, hpre, hout, htr, hlate⟩ :=
      RunE_of_late env _ (by simp [Action.stage]) hm
    obtain ⟨err, pre2, herr, hpre2, hreq⟩ :=
      requestCertificate_signing_error env payload signer tok sig pub m hlate
    refine ⟨signer, err, hsigner, herr, ?_, ?_⟩
    · rw [hout, hreq]
    · rw [htr, hreq]
      intro e he
      simp only [List.mem_append, List.mem_singleton] at he
      simp only [List.all_eq_true, Bool.and_eq_true, decide_eq_true_eq] at hpre2
      rcases he with he | he | he
      · exact hnot _ (Nat.lt_trans (hpre e he).2 (by decide))
      · exact hnot _ (Nat.lt_trans (hpre2 e he).2 (by decide))
      · subst he
        exact ⟨rfl, rfl⟩
  · intro m hm
    rcases RunE_prelude env with ⟨o, tr, hrun, -, -, -, hproof⟩ |
      ⟨payload, signer, idToken, proof, pubBytes, pre, -, hpre, hrun⟩
    · rw [hrun] at hm ⊢
      exact hproof m hm
    · rw [hrun, mem_thenRun] at hm
      simp only [List.all_eq_true, Bool.and_eq_true, decide_eq_true_eq] at hpre
      rcases hm with hm | hm
      · have := (hpre _ hm).1
        simp at this
      · have h8 := not_mem_of_stage 8 _
          (requestCertificate_stage env payload signer idToken proof pubBytes)
          (.SignProof m) false (by simp [Action.stage])
        exact absurd hm h8

theorem RunE_certificate_chain_witness :
    (RunE envEmptyChain).1 =
        .returned (some (.errorString "no certificates were found in response")) ∧
      ∀ e ∈ (RunE envEmptyChain).2, e.action.isSignArtifact = false ∧ e.action.isUpload = false :=
  (RunE_certificate_chain envEmptyChain ⟨"raw", "alice@example.com"⟩ [0] [4] "fulcio-server"
    ⟨"chain"⟩ (by decide) rfl).1 rfl

/-- C8, as stated, fails: when the issuance service answers with status 400 the
ceremony does not return an error to its caller, it ends the process with exit
code 1. -/
theorem RunE_rejected_issuance_exits :
    envRejected.GetCert ⟨"raw", "alice@example.com"⟩ [0] [4] "fulcio-server" =
        .error (.SigningCertDefault 400 "bad request") ∧
      (RunE envRejected).1 = .exited 1 ∧
      ∀ err, (RunE envRejected).1 ≠ .returned err := by
  refine ⟨rfl, rfl, ?_⟩
  intro err h
  have h1 : (RunE envRejected).1 = .exited 1 := rfl
  rw [h1] at h
  cases h

theorem RunE_issuance_failure_witness :
    (RunE envInternal).1 = .returned (some (.SigningCertDefault 500 "internal error")) ∧
      (RunE envRejected).1 = .exited 1 ∧
      ∀ e ∈ (RunE envRejected).2, e.action.isSignArtifact = false :=
  ⟨(RunE_issuance_failure envInternal ⟨"raw", "alice@example.com"⟩ [0] [4] "fulcio-server"
      (.SigningCertDefault 500 "internal error") (by decide) rfl).2.1 "internal error" rfl,
    (RunE_issuance_failure envRejected ⟨"raw", "alice@example.com"⟩ [0] [4] "fulcio-server"
      (.SigningCertDefault 400 "bad request") (by decide) rfl).2.2.1 400 "bad request" rfl
      (by decide),
    (RunE_issuance_failure envRejected ⟨"raw", "alice@example.com"⟩ [0] [4] "fulcio-server"
      (.SigningCertDefault 400 "bad request") (by decide) rfl).2.2.2⟩

/-! ### Events carry the outcome of their calls -/

theorem writeOutputs_flags (env : Env) (pem sig : Bytes) :
    ∀ e ∈ (RunE.writeOutputs env pem sig).2, e.ok = e.action.passes env := by
  simp only [RunE.writeOutputs]
  repeat' split
  all_goals intro e he
  all_goals simp only [mem_thenRun, List.mem_cons, List.mem_singleton, List.not_mem_nil,
    or_false] at he
  all_goals try casesm* _ ∨ _
  all_goals subst_vars
  all_goals simp [Action.passes, *]

theorem signAndRecord_flags (env : Env) (payload : Bytes) (signer : ECDSASignerVerifier)
    (pem : Bytes) (hsigner : env.NewDefaultECDSASignerVerifier = .ok signer) :
    ∀ e ∈ (RunE.signAndRecord env payload signer pem).2, e.ok = e.action.passes env := by
  simp only [RunE.signAndRecord]
  repeat' split
  all_goals intro e he
  all_goals simp only [mem_thenRun, List.mem_cons, List.mem_singleton, List.not_mem_nil,
    or_false] at he
  all_goals try casesm* _ ∨ _
  all_goals first
    | exact writeOutputs_flags env _ _ e ‹_›
    | (subst_vars; simp [Action.passes, succeeded, *])

theorem useResponse_flags (env : Env) (payload : Bytes) (signer : ECDSASignerVerifier)
    (certResp : SigningCertCreated) (hsigner : env.NewDefaultECDSASignerVerifier = .ok signer) :
    ∀ e ∈ (RunE.useResponse env payload signer certResp).2, e.ok = e.action.passes env := by
  simp only [RunE.useResponse]
  repeat' split
  all_goals intro e he
  all_goals simp only [mem_thenRun, List.mem_cons, List.mem_singleton, List.not_mem_nil,
    or_false] at he
  all_goals try casesm* _ ∨ _
  all_goals first
    | exact signAndRecord_flags env _ _ _ hsigner e ‹_›
    | (subst_vars; simp [Action.passes, succeeded, *])

theorem requestCertificate_flags (env : Env) (payload : Bytes) (signer : ECDSASignerVerifier)
    (idToken : OIDCIDToken) (proof pubBytes : Bytes)
    (hsigner : env.NewDefaultECDSASignerVerifier = .ok signer) :
    ∀ e ∈ (RunE.requestCertificate env payload signer idToken proof pubBytes).2,
      e.ok = e.action.passes env := by
  simp only [RunE.requestCertificate]
  repeat' split
  all_goals intro e he
  all_goals simp only [mem_thenRun, List.mem_cons, List.mem_singleton, List.not_mem_nil,
    or_false] at he
  all_goals try casesm* _ ∨ _
  all_goals first
    | exact useResponse_flags env _ _ _ hsigner e ‹_›
    | (subst_vars; simp [Action.passes, succeeded, *])

/-- The flag of every event of a run is the outcome of its call in the
environment. -/
theorem RunE_flags (env : Env) : ∀ e ∈ (RunE env).2, e.ok = e.action.passes env := by
  simp only [RunE]
  repeat' split
  all_goals intro e he
  all_goals simp only [mem_thenRun, List.mem_cons, List.mem_singleton, List.not_mem_nil,
    or_false] at he
  all_goals try casesm* _ ∨ _
  all_goals first
    | exact requestCertificate_flags env _ _ _ _ _ ‹_› e ‹_›
    | (subst_vars; simp_all [Action.passes, succeeded])

/-! ### The artifact signature is reached once the certificate is marshalled -/

theorem signAndRecord_signs (env : Env) (payload : Bytes) (signer : ECDSASignerVerifier)
    (pem : Bytes) :
    ∃ ok, ⟨.SignArtifact ⟨payload, none⟩, ok⟩ ∈ (RunE.signAndRecord env payload signer pem).2 := by
  simp only [RunE.signAndRecord]
  split
  · exact ⟨false, by simp⟩
  · exact ⟨true, by simp [mem_thenRun]⟩

theorem signAndRecord_artifact (env : Env) (payload : Bytes) (signer : ECDSASignerVerifier)
    (pem : Bytes) (m : Reader) (ok : Bool)
    (h : ⟨.SignArtifact m, ok⟩ ∈ (RunE.signAndRecord env payload signer pem).2) :
    m = ⟨payload, none⟩ := by
  revert h
  simp only [RunE.signAndRecord]
  repeat' split
  all_goals simp [mem_thenRun, writeOutputs_not_mem, Action.stage]
  all_goals intros
  all_goals simp_all

theorem useResponse_signs (env : Env) (payload : Bytes) (signer : ECDSASignerVerifier)
    (certResp : SigningCertCreated) (c : Certificate) (ok : Bool) (pem : Bytes)
    (h : ⟨.MarshalCertificateToPEM c, ok⟩ ∈ (RunE.useResponse env payload signer certResp).2)
    (hpem : env.MarshalCertificateToPEM c = .ok pem) :
    ∃ ok2, ⟨.SignArtifact ⟨payload, none⟩, ok2⟩ ∈
      (RunE.useResponse env payload signer certResp).2 := by
  revert h
  simp only [RunE.useResponse]
  repeat' split
  · simp
  · simp
  · simp only [mem_thenRun, List.mem_cons, List.mem_singleton, List.not_mem_nil, Event.mk.injEq,
      Action.MarshalCertificateToPEM.injEq, reduceCtorEq, false_and, or_false, false_or]
    intro h
    obtain ⟨hc, -⟩ := h
    subst hc
    simp_all
  · intro _
    obtain ⟨ok2, h2⟩ := signAndRecord_signs env payload signer ‹Bytes›
    exact ⟨ok2, by simp [mem_thenRun, h2]⟩

theorem useResponse_artifact (env : Env) (payload : Bytes) (signer : ECDSASignerVerifier)
    (certResp : SigningCertCreated) (m : Reader) (ok : Bool)
    (h : ⟨.SignArtifact m, ok⟩ ∈ (RunE.useResponse env payload signer certResp).2) :
    m = ⟨payload, none⟩ := by
  revert h
  simp only [RunE.useResponse]
  repeat' split
  all_goals simp [mem_thenRun]
  exact signAndRecord_artifact env payload signer _ m ok

theorem requestCertificate_signs (env : Env) (payload : Bytes) (signer : ECDSASignerVerifier)
    (idToken : OIDCIDToken) (proof pubBytes : Bytes) (c : Certificate) (ok : Bool) (pem : Bytes)
    (h : ⟨.MarshalCertificateToPEM c, ok⟩ ∈
      (RunE.requestCertificate env payload signer idToken proof pubBytes).2)
    (hpem : env.MarshalCertificateToPEM c = .ok pem) :
    ∃ ok2, ⟨.SignArtifact ⟨payload, none⟩, ok2⟩ ∈
      (RunE.requestCertificate env payload signer idToken proof pubBytes).2 := by
  revert h
  simp only [RunE.requestCertificate]
  repeat' split
  all_goals simp only [mem_thenRun, List.mem_cons, List.mem_singleton, List.not_mem_nil,
    Event.mk.injEq, reduceCtorEq, false_and, or_false, false_or, false_implies]
  intro h
  obtain ⟨ok2, h2⟩ := useResponse_signs env payload signer _ c ok pem h hpem
  exact ⟨ok2, h2⟩

theorem requestCertificate_artifact (env : Env) (payload : Bytes)
    (signer : ECDSASignerVerifier) (idToken : OIDCIDToken) (proof pubBytes : Bytes)
    (m : Reader) (ok : Bool)
    (h : ⟨.SignArtifact m, ok⟩ ∈
      (RunE.requestCertificate env payload signer idToken proof pubBytes).2) :
    m = ⟨payload, none⟩ := by
  revert h
  simp only [RunE.requestCertificate]
  repeat' split
  all_goals simp [mem_thenRun]
  exact useResponse_artifact env payload signer _ m ok

/-- The artifact signature is made over the bytes read from the artifact. -/
theorem RunE_artifact_payload (env : Env) (m : Reader) (ok : Bool)
    (h : ⟨.SignArtifact m, ok⟩ ∈ (RunE env).2) :
    env.ReadFile (env.GetString "artifact") = .ok m.data ∧ m.err = none := by
  revert h
  simp only [RunE]
  repeat' split
  all_goals simp only [mem_thenRun, List.mem_cons, List.mem_singleton, List.not_mem_nil,
    Event.mk.injEq, reduceCtorEq, false_and, or_false, false_or, false_implies]
  intro h
  have hm := requestCertificate_artifact env _ _ _ _ _ m ok h
  subst hm
  exact ⟨‹_›, rfl⟩

/-- Once the signing certificate is marshalled, the run makes the artifact
signature over the bytes of the artifact. -/
theorem RunE_reaches_signing (env : Env) (c : Certificate) (ok : Bool) (pem : Bytes)
    (h : ⟨.MarshalCertificateToPEM c, ok⟩ ∈ (RunE env).2)
    (hpem : env.MarshalCertificateToPEM c = .ok pem) :
    ∃ payload ok2, env.ReadFile (env.GetString "artifact") = .ok payload ∧
      ⟨.SignArtifact ⟨payload, none⟩, ok2⟩ ∈ (RunE env).2 := by
  obtain ⟨payload, signer, tok, sig, pub, pre, -, -, -, htr, hlate⟩ :=
    RunE_of_late env _ (by simp [Action.stage]) h
  obtain ⟨ok2, h2⟩ := requestCertificate_signs env payload signer tok sig pub c ok pem hlate hpem
  have hmem : ⟨.SignArtifact ⟨payload, none⟩, ok2⟩ ∈ (RunE env).2 := by
    rw [htr]
    exact List.mem_append_right _ h2
  exact ⟨payload, ok2, (RunE_artifact_payload env _ ok2 hmem).1, hmem⟩

/-! ### The claims on sequencing and on the two signatures -/

/-- C9: in the trace of every run, where the flag of every event is the outcome
of its call in the environment: the artifact-signing call comes only after an
issuance call that succeeded and a parse that yielded at least one certificate;
every write of the certificate or of the signature to a file, and every nil
return, comes only after a log upload that succeeded; and no stage is executed
after a stage whose call failed. -/
theorem RunE_sequencing (env : Env) :
    (∀ e ∈ (RunE env).2, e.ok = e.action.passes env) ∧
      (∀ l1 e l2, (RunE env).2 = l1 ++ e :: l2 → e.action.isSignArtifact = true →
        (∃ e1 ∈ l1, e1.action.isGetCert = true ∧ e1.action.passes env = true) ∧
          ∃ e2 ∈ l1, e2.action.isUnmarshal = true ∧ e2.action.passes env = true) ∧
      (∀ l1 e l2, (RunE env).2 = l1 ++ e :: l2 → e.action.isWrite = true →
        ∃ e1 ∈ l1, e1.action.isUpload = true ∧ e1.action.passes env = true) ∧
      ((RunE env).1 = .returned none →
        ∃ e ∈ (RunE env).2, e.action.isUpload = true ∧ e.action.passes env = true) ∧
      (∀ l1 e l2, (RunE env).2 = l1 ++ e :: l2 → e.action.passes env = false →
        ∀ e2 ∈ l2, e2.action.isStage = false) ∧
      (∀ l1 e l2, (RunE env).2 = l1 ++ e :: l2 → e.ok = false →
        ∀ e2 ∈ l2, e2.action.isStage = false) ∧
      (∀ idToken proof pubBytes server,
        ⟨.GetCert idToken proof pubBytes server, true⟩ ∈ (RunE env).2 →
        ∃ certResp, env.GetCert idToken proof pubBytes server = .ok certResp) ∧
      (∀ pem, ⟨.UnmarshalCertificatesFromPEM pem, true⟩ ∈ (RunE env).2 →
        ∃ c cs, env.UnmarshalCertificatesFromPEM pem = .ok (c :: cs)) ∧
      (∀ signingCertPEM signature server payload,
        ⟨.UploadToRekor signingCertPEM signature server payload, true⟩ ∈ (RunE env).2 →
        ∃ tlogEntry,
          env.UploadToRekor signingCertPEM signature server payload = .ok tlogEntry) := by
  have hflags := RunE_flags env
  obtain ⟨h1, h2, h3, h4, f1, f2, f3⟩ := RunE_recorded_sequencing env
  refine ⟨hflags, ?_, ?_, ?_, ?_, h4, f1, f2, f3⟩
  · intro l1 e l2 htr hq
    obtain ⟨⟨e1, he1, hk1, hok1⟩, ⟨e2, he2, hk2, hok2⟩⟩ := h1 l1 e l2 htr hq
    have hm1 : e1 ∈ (RunE env).2 := by rw [htr]; exact List.mem_append_left _ he1
    have hm2 : e2 ∈ (RunE env).2 := by rw [htr]; exact List.mem_append_left _ he2
    exact ⟨⟨e1, he1, hk1, by rw [← hflags e1 hm1]; exact hok1⟩,
      ⟨e2, he2, hk2, by rw [← hflags e2 hm2]; exact hok2⟩⟩
  · intro l1 e l2 htr hq
    obtain ⟨e1, he1, hk1, hok1⟩ := h2 l1 e l2 htr hq
    have hm1 : e1 ∈ (RunE env).2 := by rw [htr]; exact List.mem_append_left _ he1
    exact ⟨e1, he1, hk1, by rw [← hflags e1 hm1]; exact hok1⟩
  · intro hnil
    obtain ⟨e, he, hk, hok⟩ := h3 hnil
    exact ⟨e, he, hk, by rw [← hflags e he]; exact hok⟩
  · intro l1 e l2 htr hfail
    have hm : e ∈ (RunE env).2 := by rw [htr]; simp
    exact h4 l1 e l2 htr (by rw [hflags e hm]; exact hfail)

theorem RunE_sequencing_witness :
    (∃ e1 ∈ (RunE env0).2.take 17, e1.action.isUpload = true ∧ e1.action.passes env0 = true) ∧
      (∀ e2 ∈ (RunE envUnsupported).2.drop 3, e2.action.isStage = false) ∧
      (∀ e2 ∈ (RunE envWriteFails).2.drop 18, e2.action.isStage = false) ∧
      (RunE envWriteFails).2.length = 18 ∧
      (RunE envWriteFails).1 = .returned (some (.errorString "write failed")) :=
  ⟨(RunE_sequencing env0).2.2.1 ((RunE env0).2.take 17)
      ⟨.WriteCert "cert-out" [1] 0o600, true⟩ ((RunE env0).2.drop 18) rfl rfl,
    (RunE_sequencing envUnsupported).2.2.2.2.1 ((RunE envUnsupported).2.take 2)
      ⟨.FindString "text/plain", false⟩ ((RunE envUnsupported).2.drop 3) (by decide) rfl,
    (RunE_sequencing envWriteFails).2.2.2.2.1 ((RunE envWriteFails).2.take 17)
      ⟨.WriteCert "cert-out" [1] 0o600, false⟩ ((RunE envWriteFails).2.drop 18) rfl rfl,
    rfl, rfl⟩

/-- C10: in a run that made the SignMessage call over the artifact, if that call
returns an error the ceremony does not return it to its caller: it panics with a
message built from the error, and neither the log upload nor any file write is
performed; that call is made, over the bytes of the artifact, in every run in
which the signing certificate was obtained. If the earlier SignMessage call over
the token subject returns an error, that error is returned to the caller
unchanged. -/
theorem RunE_signing_failure (env : Env) (signer : ECDSASignerVerifier)
    (hsigner : env.NewDefaultECDSASignerVerifier = .ok signer) :
    (∀ m ok err, ⟨.SignArtifact m, ok⟩ ∈ (RunE env).2 → signer.SignMessage 1 m = .error err →
        (RunE env).1 =
            .panicked ("Error occurred while during artifact signing: " ++ err.Error) ∧
          (∀ r, (RunE env).1 ≠ .returned r) ∧
          ∀ e ∈ (RunE env).2, e.action.isUpload = false ∧ e.action.isWrite = false) ∧
      (∀ c ok pem, ⟨.MarshalCertificateToPEM c, ok⟩ ∈ (RunE env).2 →
        env.MarshalCertificateToPEM c = .ok pem →
        ∃ payload ok2, env.ReadFile (env.GetString "artifact") = .ok payload ∧
          ⟨.SignArtifact ⟨payload, none⟩, ok2⟩ ∈ (RunE env).2) ∧
      (∀ m ok err, ⟨.SignProof m, ok⟩ ∈ (RunE env).2 → signer.SignMessage 0 m = .error err →
        (RunE env).1 = .returned (some err)) := by
  obtain ⟨hart, hproof⟩ := RunE_recorded_signing_failure env
  refine ⟨?_, fun c ok pem h hpem => RunE_reaches_signing env c ok pem h hpem, ?_⟩
  · intro m ok err hmem herr
    have hflag := RunE_flags env _ hmem
    simp only [Action.passes, hsigner, herr, succeeded] at hflag
    subst hflag
    obtain ⟨signer2, err2, hs2, herr2, hout, hnone⟩ := hart m hmem
    rw [hsigner] at hs2
    cases hs2
    rw [herr] at herr2
    cases herr2
    refine ⟨hout, ?_, hnone⟩
    intro r hr
    rw [hout] at hr
    cases hr
  · intro m ok err hmem herr
    have hflag := RunE_flags env _ hmem
    simp only [Action.passes, hsigner, herr, succeeded] at hflag
    subst hflag
    obtain ⟨signer2, err2, hs2, herr2, hout⟩ := hproof m hmem
    rw [hsigner] at hs2
    cases hs2
    rw [herr] at herr2
    cases herr2
    exact hout

theorem RunE_signing_failure_witness :
    ((RunE envArtifactFails).1 =
          .panicked ("Error occurred while during artifact signing: " ++
            (GoError.errorString "signing failed").Error) ∧
        (∀ r, (RunE envArtifactFails).1 ≠ .returned r) ∧
        ∀ e ∈ (RunE envArtifactFails).2, e.action.isUpload = false ∧ e.action.isWrite = false) ∧
      (RunE envProofFails).1 = .returned (some (.errorString "signing failed")) :=
  ⟨(RunE_signing_failure envArtifactFails signerArtifactFails rfl).1
      ⟨[104, 101, 108, 108, 111], none⟩ false (.errorString "signing failed") (by decide) rfl,
    (RunE_signing_failure envProofFails signerProofFails rfl).2.2
      ⟨bytesOf "alice@example.com", none⟩ false (.errorString "signing failed")
      (by simp [RunE, thenRun, envProofFails, env0, signerProofFails]) rfl⟩

end KeylessSigning
